import Mathlib

/-!
Verification of the collision engine (`collision.py`).

The engine works on pygame integer rectangles.  All geometry here is exact
integer arithmetic.  The only transcendental ingredient of the source is
`pygame.math.Vector2.angle_to`, which computes `atan2(other) - atan2(self)`
in degrees; the source reduces these angles mod 360 and compares them with
`<`.  Comparisons between angles of integer vectors are rendered exactly
below with cross and dot products (see `region` and `angLt`), which agree
with the real-arithmetic value of the source expressions.
-/

namespace Collision

/-- A 2D integer vector (pygame `Vector2` as used by the engine holds integer
rectangle coordinates). -/
structure Vec2 where
  x : Int
  y : Int
deriving DecidableEq

/-- A pygame rectangle: position of the top-left corner and size.  Pygame
uses a y-down screen coordinate system. -/
structure Rect where
  x : Int
  y : Int
  w : Int
  h : Int
deriving DecidableEq

def Rect.left (r : Rect) : Int := r.x

def Rect.right (r : Rect) : Int := r.x + r.w

def Rect.top (r : Rect) : Int := r.y

def Rect.bottom (r : Rect) : Int := r.y + r.h

/-- pygame `rect.centerx = x + w // 2` (sizes are nonnegative in pygame, so
all integer-division conventions agree). -/
def Rect.centerx (r : Rect) : Int := r.x + r.w / 2

def Rect.centery (r : Rect) : Int := r.y + r.h / 2

/-- Assigning `rect.bottom = v` in pygame moves the rectangle, keeping its
size. -/
def Rect.setBottom (r : Rect) (v : Int) : Rect := { r with y := v - r.h }

def Rect.setTop (r : Rect) (v : Int) : Rect := { r with y := v }

def Rect.setLeft (r : Rect) (v : Int) : Rect := { r with x := v }

def Rect.setRight (r : Rect) (v : Int) : Rect := { r with x := v - r.w }

/-- pygame `colliderect` / `sprite.collide_rect` overlap test:
`A.x < B.x + B.w and A.y < B.y + B.h and A.x + A.w > B.x and A.y + A.h > B.y`. -/
def collideRect (a b : Rect) : Bool :=
  decide (a.x < b.x + b.w) && decide (a.y < b.y + b.h) &&
    decide (a.x + a.w > b.x) && decide (a.y + a.h > b.y)

/-- pygame `Rect.contains(A, B)`: B lies inside A. -/
def containsRect (a b : Rect) : Bool :=
  decide (b.x ≥ a.x) && decide (b.y ≥ a.y) &&
    decide (b.x + b.w ≤ a.x + a.w) && decide (b.y + b.h ≤ a.y + a.h) &&
    decide (b.x + b.w > a.x) && decide (b.y + b.h > a.y)

/-- Cross product of two integer vectors; its sign is the sine sign of the
counterclockwise angle from `a` to `b`. -/
def cross (a b : Vec2) : Int := a.x * b.y - a.y * b.x

/-- Dot product of two integer vectors; its sign is the cosine sign of the
angle between `a` and `b`. -/
def dot (a b : Vec2) : Int := a.x * b.x + a.y * b.y

/-- The source computes angles with `atan2`; `atan2 0 0 = 0`, so the zero
vector has the same angle as the unit vector `(1, 0)`.  `normAng` makes this
explicit, letting nonzero cross/dot sign tests capture angle comparisons
also when a center-to-center displacement is zero. -/
def normAng (v : Vec2) : Vec2 := if v.x = 0 ∧ v.y = 0 then ⟨1, 0⟩ else v

/-- Which part of `[0, 360)` the relative angle
`(atan2 v - atan2 o) mod 360` of the source lies in:
`0` for angle `= 0`, `1` for `(0, 180)`, `2` for `= 180`, `3` for
`(180, 360)`.  For nonzero vectors the angle is in `(0, 180)` iff the cross
product is positive, `(180, 360)` iff negative, and for parallel vectors the
dot product separates `0` from `180`. -/
def region (o v : Vec2) : Nat :=
  if 0 < cross (normAng o) (normAng v) then 1
  else if cross (normAng o) (normAng v) < 0 then 3
  else if 0 < dot (normAng o) (normAng v) then 0
  else 2

/-- Exact rendering of the source comparison
`(atan2 v - atan2 o) mod 360 < (atan2 u - atan2 o) mod 360`:
angles in different regions compare by region, angles in the same open
half-plane region compare by the cross product of the two vectors (for the
degenerate equal-angle regions 0 and 2 the cross product is zero, so the
comparison is correctly strict). -/
def angLt (o v u : Vec2) : Bool :=
  if region o v = region o u then decide (0 < cross (normAng v) (normAng u))
  else decide (region o v < region o u)

/-- Relative-angle equality `(atan2 v - atan2 o) = (atan2 u - atan2 o) mod 360`,
used to state when the displacement angle falls exactly on a sector
boundary. -/
def angEq (o v u : Vec2) : Bool := !angLt o v u && !angLt o u v

/-- The four collision side labels returned by `_checkCollisionDirection`. -/
inductive Dir
  | bottom
  | left
  | top
  | right
deriving DecidableEq

/-- Shallow embedding of `_checkCollisionDirection(moving, static)`.

The source computes the four spoke vectors from the static rectangle's
corners to its center, measures every angle relative to the top-left spoke
(`origin`), reduces mod 360, and tests which strict angular sector contains
the angle of the center-to-center displacement, in the order bottom, left,
top, right.  `angLt o v u` is the exact form of the source comparison
`(v angle) < (u angle)` of relative angles; in particular
`angLt origin vec_M00 displacement` renders `angle_00 < angle`. -/
def checkCollisionDirection (moving fixed : Rect) : Option Dir :=
  if collideRect moving fixed then
    let x := fixed.centerx
    let y := fixed.centery
    let vec_M00 : Vec2 := ⟨x - fixed.left, y - fixed.top⟩
    let vec_M10 : Vec2 := ⟨x - fixed.right, y - fixed.top⟩
    let vec_M11 : Vec2 := ⟨x - fixed.right, y - fixed.bottom⟩
    let vec_M01 : Vec2 := ⟨x - fixed.left, y - fixed.bottom⟩
    let origin := vec_M00
    let displacement : Vec2 := ⟨x - moving.centerx, y - moving.centery⟩
    let isCollideBottom := angLt origin vec_M00 displacement &&
      angLt origin displacement vec_M10
    let isCollideLeft := angLt origin vec_M10 displacement &&
      angLt origin displacement vec_M11
    let isCollideTop := angLt origin vec_M11 displacement &&
      angLt origin displacement vec_M01
    let isCollideRight := angLt origin vec_M01 displacement
    if isCollideBottom then some Dir.bottom
    else if isCollideLeft then some Dir.left
    else if isCollideTop then some Dir.top
    else if isCollideRight then some Dir.right
    else none
  else none

/-- Scene messages emitted through `messageScene`: a death notification
carrying the player's identity, or level completion. -/
inductive Msg
  | death (num : Nat)
  | complete
deriving DecidableEq

/-- A player entity: rectangle, velocity, displacement accumulator,
on-ground flag, numeric identity and the cooperative-jump keybind.  The
physics component of the real game lives outside `src/`; its velocity and
displacement fields are carried here directly. -/
structure Player where
  rect : Rect
  velx : Int
  vely : Int
  dispx : Int
  dispy : Int
  isOnGround : Bool
  num : Nat
  coopJump : Nat
deriving DecidableEq

/-- A switch: rectangle plus on/off state. -/
structure Switch where
  rect : Rect
  isOn : Bool
deriving DecidableEq

/-- A moving platform: rectangle plus its per-frame displacement. -/
structure MPlat where
  rect : Rect
  dx : Int
  dy : Int
deriving DecidableEq

/-- A door: rectangle plus open/closed state. -/
structure Door where
  rect : Rect
  isClosed : Bool
deriving DecidableEq

/-- The scene collections read by the engine. -/
structure Scene where
  players : List Player
  walls : List Rect
  sPlatforms : List Rect
  dPlatforms : List Rect
  mPlatforms : List MPlat
  switches : List Switch
  doors : List Door
  spikes : List Rect
  bosses : List Rect
  rect : Rect
deriving DecidableEq

/-- The engine-visible state: the scene, the messages sent to the scene via
`messageScene` (in emission order), and the audio component's state flag. -/
structure EngineState where
  scene : Scene
  messages : List Msg
  audioState : String
deriving DecidableEq

/-- Modelled from the spec: `physics.addVelocityX(name, v)` imparts an
instantaneous horizontal velocity impulse, adding `v` to the x velocity
(the physics component is outside `src/`). -/
def addVelocityX (p : Player) (v : Int) : Player := { p with velx := p.velx + v }

/-- Modelled from the spec: `physics.addVelocityY(name, v)` imparts an
instantaneous vertical velocity impulse, adding `v` to the y velocity. -/
def addVelocityY (p : Player) (v : Int) : Player := { p with vely := p.vely + v }

/-- Modelled from the spec: `physics.addDisplacementX(name, v)` adds to the
per-entity displacement accumulator used to carry players along moving
platforms. -/
def addDisplacementX (p : Player) (v : Int) : Player := { p with dispx := p.dispx + v }

/-- Modelled from the spec: `physics.addDisplacementY(name, v)`. -/
def addDisplacementY (p : Player) (v : Int) : Player := { p with dispy := p.dispy + v }

/-- Modelled from the spec: `switch.turnOff()` turns the switch off. -/
def Switch.turnOff (s : Switch) : Switch := { s with isOn := false }

/-- One step of the `_resolveBasicCollision` loop body: classify the
collision side of `moving` against one wall and snap position/velocity. -/
def basicStep (p : Player) (wall : Rect) : Player :=
  match checkCollisionDirection p.rect wall with
  | some Dir.bottom =>
      { p with rect := p.rect.setBottom wall.top, vely := 0, isOnGround := true }
  | some Dir.left =>
      { p with rect := p.rect.setLeft wall.right, velx := 0 }
  | some Dir.top =>
      { p with rect := p.rect.setTop wall.bottom, vely := 0 }
  | some Dir.right =>
      { p with rect := p.rect.setRight wall.left, velx := 0 }
  | none => p

/-- Shallow embedding of `_resolveBasicCollision(moving, group)`: the hit
list is computed once from the entry rectangle (`pg.sprite.spritecollide`),
then each hit is classified against the current, possibly already corrected,
rectangle and resolved in turn. -/
def resolveBasicCollision (p : Player) (group : List Rect) : Player :=
  let hits := group.filter (fun wall => collideRect p.rect wall)
  hits.foldl basicStep p

/-- The body of `resolveDPlatformCollisions` for one player: only the
"bottom" classification within the 30-unit tolerance band snaps the player,
marks it on ground, and zeroes only a downward (positive) y velocity. -/
def resolveDPlatformOne (p : Player) (dPlatforms : List Rect) : Player :=
  let hits := dPlatforms.filter (fun platform => collideRect p.rect platform)
  hits.foldl
    (fun p platform =>
      match checkCollisionDirection p.rect platform with
      | some Dir.bottom =>
          let tol := (p.rect.bottom - platform.top).natAbs
          if tol < 30 then
            let p := { p with rect := p.rect.setBottom platform.top, isOnGround := true }
            if p.vely > 0 then { p with vely := 0 } else p
          else p
      | _ => p)
    p

/-- The body of `resolveMPlatformCollisions` for one player: record the hits,
resolve solidity with the basic resolver, then add each hit platform's own
displacement to the player. -/
def resolveMPlatformOne (p : Player) (mPlatforms : List MPlat) : Player :=
  let hits := mPlatforms.filter (fun platform => collideRect p.rect platform.rect)
  let p := resolveBasicCollision p (mPlatforms.map (fun platform => platform.rect))
  hits.foldl (fun p platform => addDisplacementY (addDisplacementX p platform.dx) platform.dy) p

/-- `resolveWallCollisions`: basic resolution of every player against the
walls. -/
def resolveWallCollisions (st : EngineState) : EngineState :=
  { st with scene := { st.scene with
      players := st.scene.players.map (fun p => resolveBasicCollision p st.scene.walls) } }

/-- `resolveSPlatformCollisions`: basic resolution against static
platforms. -/
def resolveSPlatformCollisions (st : EngineState) : EngineState :=
  { st with scene := { st.scene with
      players := st.scene.players.map (fun p => resolveBasicCollision p st.scene.sPlatforms) } }

/-- `resolveDPlatformCollisions` over all players. -/
def resolveDPlatformCollisions (st : EngineState) : EngineState :=
  { st with scene := { st.scene with
      players := st.scene.players.map (fun p => resolveDPlatformOne p st.scene.dPlatforms) } }

/-- `resolveMPlatformCollisions` over all players. -/
def resolveMPlatformCollisions (st : EngineState) : EngineState :=
  { st with scene := { st.scene with
      players := st.scene.players.map (fun p => resolveMPlatformOne p st.scene.mPlatforms) } }

/-- Whether some player overlaps the switch while moving (nonzero velocity
on either axis). -/
def hitByMovingPlayer (players : List Player) (s : Switch) : Bool :=
  players.any (fun p => collideRect p.rect s.rect && (decide (p.velx ≠ 0) || decide (p.vely ≠ 0)))

/-- `resolveSwitchCollisions` on the scene: every switch that is on and is
touched by a moving player is turned off; nothing else changes. -/
def resolveSwitchCollisions (sc : Scene) : Scene :=
  { sc with switches := sc.switches.map (fun s =>
      if s.isOn && hitByMovingPlayer sc.players s then s.turnOff else s) }

/-- Engine-state wrapper of `resolveSwitchCollisions`. -/
def resolveSwitchCollisionsE (st : EngineState) : EngineState :=
  { st with scene := resolveSwitchCollisions st.scene }

/-- `resolveDoorCollisions`: for each player overlapping some door, if no
door is still closed, request level completion. -/
def resolveDoorCollisions (st : EngineState) : EngineState :=
  let doorsClosed := st.scene.doors.filter (fun d => d.isClosed)
  let completions := (st.scene.players.filter (fun p =>
    st.scene.doors.any (fun d => collideRect p.rect d.rect) && doorsClosed.isEmpty)).map
      (fun _ => Msg.complete)
  { st with messages := st.messages ++ completions }

/-- `resolveSpikeCollisions`: any overlap with a spike is an instant death
notification carrying the player's identity. -/
def resolveSpikeCollisions (st : EngineState) : EngineState :=
  let deaths := (st.scene.players.filter (fun p =>
    st.scene.spikes.any (fun s => collideRect p.rect s))).map (fun p => Msg.death p.num)
  { st with messages := st.messages ++ deaths }

/-- `resolveBossCollisions`: identical policy for bosses. -/
def resolveBossCollisions (st : EngineState) : EngineState :=
  let deaths := (st.scene.players.filter (fun p =>
    st.scene.bosses.any (fun b => collideRect p.rect b))).map (fun p => Msg.death p.num)
  { st with messages := st.messages ++ deaths }

/-- The oversized rectangle constructed by `resolveBoundaryCollision`:
`pg.Rect(-1000, -1000, w + 2000, h + 2000)` where `(w, h)` is the scene
rectangle's size — its position is ignored. -/
def boundaryRect (sc : Scene) : Rect :=
  ⟨-1000, -1000, sc.rect.w + 2000, sc.rect.h + 2000⟩

/-- Follows the spec's words (for comparison with `boundaryRect`): the
scene's bounding rectangle expanded by a 1000-unit margin on each side. -/
def specExpandedRect (r : Rect) : Rect :=
  ⟨r.x - 1000, r.y - 1000, r.w + 2000, r.h + 2000⟩

/-- `resolveBoundaryCollision`: every player whose rectangle is not fully
contained in the oversized boundary rectangle has fallen out of the level
and triggers a death notification. -/
def resolveBoundaryCollision (st : EngineState) : EngineState :=
  let deaths := (st.scene.players.filter (fun p =>
    !containsRect (boundaryRect st.scene) p.rect)).map (fun p => Msg.death p.num)
  { st with messages := st.messages ++ deaths }

/-- `resolvePlayerCollisions(explosionSpeed)`: with exactly two players
(otherwise the tuple unpacking raises `ValueError`, swallowed by the
caller), overlapping players both receive an upward velocity impulse and
opposite horizontal impulses, the rightmost player being pushed further
right. -/
def resolvePlayerCollisions (explosionSpeed : Int) (st : EngineState) : EngineState :=
  match st.scene.players with
  | [p1, p2] =>
      if collideRect p1.rect p2.rect then
        let q1 := addVelocityY p1 (-explosionSpeed)
        let q2 := addVelocityY p2 (-explosionSpeed)
        if q2.rect.x > q1.rect.x then
          { st with scene := { st.scene with
              players := [addVelocityX q1 (-explosionSpeed), addVelocityX q2 explosionSpeed] } }
        else
          { st with scene := { st.scene with
              players := [addVelocityX q1 explosionSpeed, addVelocityX q2 (-explosionSpeed)] } }
      else st
  | _ => st

/-- pygame `pg.K_RETURN`. -/
def K_RETURN : Nat := 13

/-- The `try` block of `eventHandler`: only when the scene holds exactly
two players (the tuple unpacking otherwise raises a `ValueError` swallowed
by the handler), a key matching either player's coop-jump binding fires the
cooperative explosion and sets the explosion sound cue. -/
def coopJumpPart (key : Nat) (st : EngineState) : EngineState :=
  match st.scene.players with
  | [p1, p2] =>
      if key = p1.coopJump ∨ key = p2.coopJump then
        { resolvePlayerCollisions 30 st with audioState := "explosion" }
      else st
  | _ => st

/-- Shallow embedding of `eventHandler` for a key-down event carrying `key`:
door resolution on the confirm key, then the cooperative-jump block. -/
def eventHandler (key : Nat) (st : EngineState) : EngineState :=
  coopJumpPart key (if key = K_RETURN then resolveDoorCollisions st else st)

/-- Modelled from the spec: `audio.update()` advances the external audio
playback collaborator once per tick; it does not touch scene entities or
messages. -/
def audioUpdate (st : EngineState) : EngineState := st

/-- The per-tick pass `update`, in the fixed source order. -/
def update (st : EngineState) : EngineState :=
  audioUpdate
    (resolveBoundaryCollision
      (resolveBossCollisions
        (resolveSpikeCollisions
          (resolveMPlatformCollisions
            (resolveDPlatformCollisions
              (resolveSPlatformCollisions
                (resolveSwitchCollisionsE
                  (resolveWallCollisions st))))))))

/-- The sector dispatch of `_checkCollisionDirection` abstracted over the
four spoke vectors and the displacement, used to factor the geometric core
of the classifier proofs. -/
def classifyAux (o p10 p11 p01 d : Vec2) : Option Dir :=
  if angLt o o d && angLt o d p10 then some Dir.bottom
  else if angLt o p10 d && angLt o d p11 then some Dir.left
  else if angLt o p11 d && angLt o d p01 then some Dir.top
  else if angLt o p01 d then some Dir.right
  else none

/-- The source's `vec_M00`: from the static rectangle's top-left corner to
its center, also used as the angle reference (`origin`). -/
def originSpoke (s : Rect) : Vec2 := ⟨s.centerx - s.left, s.centery - s.top⟩

/-- The source's `vec_M10` (top-right corner spoke). -/
def spokeTR (s : Rect) : Vec2 := ⟨s.centerx - s.right, s.centery - s.top⟩

/-- The source's `vec_M11` (bottom-right corner spoke). -/
def spokeBR (s : Rect) : Vec2 := ⟨s.centerx - s.right, s.centery - s.bottom⟩

/-- The source's `vec_M01` (bottom-left corner spoke). -/
def spokeBL (s : Rect) : Vec2 := ⟨s.centerx - s.left, s.centery - s.bottom⟩

/-- The source's `displacement`: from the mover's center to the static
center. -/
def dispVec (m s : Rect) : Vec2 := ⟨s.centerx - m.centerx, s.centery - m.centery⟩

/-- The width and height of every player's rectangle, in scene order. -/
def sizes (ps : List Player) : List (Int × Int) := ps.map (fun p => (p.rect.w, p.rect.h))

/-- Every obstacle rectangle of the scene (walls, platforms, switches,
doors, spikes, bosses, and the scene rectangle itself). -/
def obstacleRects (sc : Scene) : List Rect :=
  sc.walls ++ sc.sPlatforms ++ sc.dPlatforms ++ sc.mPlatforms.map MPlat.rect ++
    sc.switches.map Switch.rect ++ sc.doors.map Door.rect ++ sc.spikes ++ sc.bosses ++
    [sc.rect]


lemma normAng_of_ne (v : Vec2) (h : ¬(v.x = 0 ∧ v.y = 0)) : normAng v = v := by
  unfold normAng
  rw [if_neg h]

lemma normAng_of_x_ne (p q : Int) (h : p ≠ 0) : normAng ⟨p, q⟩ = ⟨p, q⟩ := by
  refine normAng_of_ne _ ?_
  rintro ⟨h1, h2⟩
  exact h h1

lemma normAng_of_y_ne (p q : Int) (h : q ≠ 0) : normAng ⟨p, q⟩ = ⟨p, q⟩ := by
  refine normAng_of_ne _ ?_
  rintro ⟨h1, h2⟩
  exact h h2

lemma region_eq_one {o v : Vec2} (h : 0 < cross (normAng o) (normAng v)) :
    region o v = 1 := by
  unfold region
  rw [if_pos h]

lemma region_eq_three {o v : Vec2} (h : cross (normAng o) (normAng v) < 0) :
    region o v = 3 := by
  unfold region
  rw [if_neg (by omega), if_pos h]

lemma region_eq_zero {o v : Vec2} (h : cross (normAng o) (normAng v) = 0)
    (hd : 0 < dot (normAng o) (normAng v)) : region o v = 0 := by
  unfold region
  rw [if_neg (by omega), if_neg (by omega), if_pos hd]

lemma region_eq_two {o v : Vec2} (h : cross (normAng o) (normAng v) = 0)
    (hd : dot (normAng o) (normAng v) ≤ 0) : region o v = 2 := by
  unfold region
  rw [if_neg (by omega), if_neg (by omega), if_neg (by omega)]

lemma angLt_true_of_region_lt {o v u : Vec2} (h : region o v < region o u) :
    angLt o v u = true := by
  unfold angLt
  rw [if_neg (by omega)]
  simpa using h

lemma angLt_true_of_cross {o v u : Vec2} (h : region o v = region o u)
    (hc : 0 < cross (normAng v) (normAng u)) : angLt o v u = true := by
  unfold angLt
  rw [if_pos h]
  simpa using hc

lemma angLt_false_of_region_gt {o v u : Vec2} (h : region o u < region o v) :
    angLt o v u = false := by
  unfold angLt
  rw [if_neg (by omega)]
  simpa using by omega

lemma angLt_false_of {o v u : Vec2} (hle : region o u ≤ region o v)
    (hc : cross (normAng v) (normAng u) ≤ 0) : angLt o v u = false := by
  unfold angLt
  by_cases h : region o v = region o u
  · rw [if_pos h]
    simpa using hc
  · rw [if_neg h]
    simpa using by omega

lemma checkCollisionDirection_eq_aux (m s : Rect) (hc : collideRect m s = true) :
    checkCollisionDirection m s =
      classifyAux ⟨s.w / 2, s.h / 2⟩ ⟨s.w / 2 - s.w, s.h / 2⟩
        ⟨s.w / 2 - s.w, s.h / 2 - s.h⟩ ⟨s.w / 2, s.h / 2 - s.h⟩
        ⟨s.centerx - m.centerx, s.centery - m.centery⟩ := by
  obtain ⟨sx, sy, sw, sh⟩ := s
  simp only [checkCollisionDirection, classifyAux, hc, if_true, Rect.centerx, Rect.centery,
    Rect.left, Rect.right, Rect.top, Rect.bottom, add_sub_cancel_left, add_sub_add_left_eq_sub]

lemma region_le_three (o v : Vec2) : region o v ≤ 3 := by
  unfold region
  split_ifs <;> omega

lemma angLt_true_of {o v u : Vec2} (hle : region o v ≤ region o u)
    (hc : 0 < cross (normAng v) (normAng u)) : angLt o v u = true := by
  by_cases h : region o v = region o u
  · exact angLt_true_of_cross h hc
  · exact angLt_true_of_region_lt (by omega)

/-- Geometric core, approach from above: with nondegenerate static half
sizes `a, b` (and `w, h` the full sizes), a displacement pointing down into
the bottom sector is classified `bottom`. -/
lemma classify_core_above (a b w h dx dy : Int) (ha : 1 ≤ a) (hb : 1 ≤ b)
    (haw : a ≤ w - a) (hdy : b + 1 ≤ dy) (hdx1 : -(w - a) ≤ dx) (hdx2 : dx ≤ a) :
    classifyAux ⟨a, b⟩ ⟨a - w, b⟩ ⟨a - w, b - h⟩ ⟨a, b - h⟩ ⟨dx, dy⟩ = some Dir.bottom := by
  have hno : normAng ⟨a, b⟩ = ⟨a, b⟩ := normAng_of_x_ne a b (by omega)
  have hnd : normAng ⟨dx, dy⟩ = ⟨dx, dy⟩ := normAng_of_y_ne dx dy (by omega)
  have hn10 : normAng ⟨a - w, b⟩ = ⟨a - w, b⟩ := normAng_of_y_ne (a - w) b (by omega)
  have r_oo : region ⟨a, b⟩ ⟨a, b⟩ = 0 := by
    refine region_eq_zero ?_ ?_
    · rw [hno]
      show a * b - b * a = 0
      ring
    · rw [hno]
      show 0 < a * a + b * b
      nlinarith
  have r_od : region ⟨a, b⟩ ⟨dx, dy⟩ = 1 := by
    refine region_eq_one ?_
    rw [hno, hnd]
    show 0 < a * dy - b * dx
    nlinarith [mul_le_mul_of_nonneg_left hdx2 (show (0:ℤ) ≤ b by omega),
      mul_le_mul_of_nonneg_left hdy (show (0:ℤ) ≤ a by omega)]
  have r_o10 : region ⟨a, b⟩ ⟨a - w, b⟩ = 1 := by
    refine region_eq_one ?_
    rw [hno, hn10]
    show 0 < a * b - b * (a - w)
    nlinarith [mul_pos (show (0:ℤ) < b by omega) (show (0:ℤ) < w by omega)]
  have t1 : angLt ⟨a, b⟩ ⟨a, b⟩ ⟨dx, dy⟩ = true := by
    refine angLt_true_of_region_lt ?_
    rw [r_oo, r_od]
    omega
  have t2 : angLt ⟨a, b⟩ ⟨dx, dy⟩ ⟨a - w, b⟩ = true := by
    refine angLt_true_of_cross (by rw [r_od, r_o10]) ?_
    rw [hnd, hn10]
    show 0 < dx * b - dy * (a - w)
    nlinarith [mul_le_mul_of_nonneg_left hdy (show (0:ℤ) ≤ w - a by omega),
      mul_le_mul_of_nonneg_left hdx1 (show (0:ℤ) ≤ b by omega)]
  unfold classifyAux
  rw [t1, t2]
  simp

/-- Geometric core, approach from the left: the displacement points in the
positive x direction, whose relative angle lies in the last, "right",
sector, so the classifier labels the collision with the mover's right
edge. -/
lemma classify_core_leftof (a b w h dx dy : Int) (ha : 1 ≤ a) (hb : 1 ≤ b)
    (haw : a ≤ w - a) (haw1 : w - a ≤ a + 1) (hbh : b ≤ h - b)
    (hdx : a + 1 ≤ dx) (hdy1 : -(h - b) ≤ dy) (hdy2 : dy ≤ b) :
    classifyAux ⟨a, b⟩ ⟨a - w, b⟩ ⟨a - w, b - h⟩ ⟨a, b - h⟩ ⟨dx, dy⟩ = some Dir.right := by
  have hno : normAng ⟨a, b⟩ = ⟨a, b⟩ := normAng_of_x_ne a b (by omega)
  have hnd : normAng ⟨dx, dy⟩ = ⟨dx, dy⟩ := normAng_of_x_ne dx dy (by omega)
  have hn10 : normAng ⟨a - w, b⟩ = ⟨a - w, b⟩ := normAng_of_y_ne (a - w) b (by omega)
  have hn01 : normAng ⟨a, b - h⟩ = ⟨a, b - h⟩ := normAng_of_x_ne a (b - h) (by omega)
  have hn11 : normAng ⟨a - w, b - h⟩ = ⟨a - w, b - h⟩ := normAng_of_y_ne (a - w) (b - h) (by omega)
  have r_od : region ⟨a, b⟩ ⟨dx, dy⟩ = 3 := by
    refine region_eq_three ?_
    rw [hno, hnd]
    show a * dy - b * dx < 0
    nlinarith [mul_le_mul_of_nonneg_left hdy2 (show (0:ℤ) ≤ a by omega),
      mul_le_mul_of_nonneg_left hdx (show (0:ℤ) ≤ b by omega)]
  have r_o10 : region ⟨a, b⟩ ⟨a - w, b⟩ = 1 := by
    refine region_eq_one ?_
    rw [hno, hn10]
    show 0 < a * b - b * (a - w)
    nlinarith [mul_pos (show (0:ℤ) < b by omega) (show (0:ℤ) < w by omega)]
  have r_o01 : region ⟨a, b⟩ ⟨a, b - h⟩ = 3 := by
    refine region_eq_three ?_
    rw [hno, hn01]
    show a * (b - h) - b * a < 0
    nlinarith [mul_pos (show (0:ℤ) < a by omega) (show (0:ℤ) < h by omega)]
  have f1 : angLt ⟨a, b⟩ ⟨dx, dy⟩ ⟨a - w, b⟩ = false := by
    refine angLt_false_of_region_gt ?_
    rw [r_od, r_o10]
    omega
  have f2 : angLt ⟨a, b⟩ ⟨dx, dy⟩ ⟨a - w, b - h⟩ = false := by
    refine angLt_false_of (by rw [r_od]; exact region_le_three _ _) ?_
    rw [hnd, hn11]
    show dx * (b - h) - dy * (a - w) ≤ 0
    nlinarith [mul_le_mul_of_nonneg_left hdx (show (0:ℤ) ≤ h - b by omega),
      mul_le_mul_of_nonneg_left hdy2 (show (0:ℤ) ≤ w - a by omega),
      mul_le_mul_of_nonneg_left (show w ≤ 2 * a + 1 by omega) (show (0:ℤ) ≤ b by omega),
      mul_le_mul_of_nonneg_left (show 2 * b ≤ h by omega) (show (0:ℤ) ≤ a by omega)]
  have f3 : angLt ⟨a, b⟩ ⟨dx, dy⟩ ⟨a, b - h⟩ = false := by
    refine angLt_false_of (by rw [r_od, r_o01]) ?_
    rw [hnd, hn01]
    show dx * (b - h) - dy * a ≤ 0
    nlinarith [mul_le_mul_of_nonneg_left hdx (show (0:ℤ) ≤ h - b by omega),
      mul_le_mul_of_nonneg_left hdy1 (show (0:ℤ) ≤ a by omega)]
  have t4 : angLt ⟨a, b⟩ ⟨a, b - h⟩ ⟨dx, dy⟩ = true := by
    refine angLt_true_of_cross (by rw [r_o01, r_od]) ?_
    rw [hn01, hnd]
    show 0 < a * dy - (b - h) * dx
    nlinarith [mul_le_mul_of_nonneg_left hdy1 (show (0:ℤ) ≤ a by omega),
      mul_le_mul_of_nonneg_left hdx (show (0:ℤ) ≤ h - b by omega)]
  unfold classifyAux
  rw [f1, f2, f3, t4]
  simp

/-- Geometric core, approach from below: the displacement points up into
the "top" sector, so the classifier labels the collision with the mover's
top edge. -/
lemma classify_core_below (a b w h dx dy : Int) (ha : 1 ≤ a) (hb : 1 ≤ b)
    (haw : a ≤ w - a) (haw1 : w - a ≤ a + 1) (hbh : b ≤ h - b) (hbh1 : h - b ≤ b + 1)
    (hdy : dy ≤ -(h - b) - 1) (hdx1 : -(w - a) ≤ dx) (hdx2 : dx ≤ a) :
    classifyAux ⟨a, b⟩ ⟨a - w, b⟩ ⟨a - w, b - h⟩ ⟨a, b - h⟩ ⟨dx, dy⟩ = some Dir.top := by
  have hno : normAng ⟨a, b⟩ = ⟨a, b⟩ := normAng_of_x_ne a b (by omega)
  have hnd : normAng ⟨dx, dy⟩ = ⟨dx, dy⟩ := normAng_of_y_ne dx dy (by omega)
  have hn10 : normAng ⟨a - w, b⟩ = ⟨a - w, b⟩ := normAng_of_y_ne (a - w) b (by omega)
  have hn01 : normAng ⟨a, b - h⟩ = ⟨a, b - h⟩ := normAng_of_x_ne a (b - h) (by omega)
  have hn11 : normAng ⟨a - w, b - h⟩ = ⟨a - w, b - h⟩ := normAng_of_y_ne (a - w) (b - h) (by omega)
  have hab : a * b ≤ (w - a) * (h - b) :=
    mul_le_mul haw hbh (by omega) (by omega)
  have r_o10 : region ⟨a, b⟩ ⟨a - w, b⟩ = 1 := by
    refine region_eq_one ?_
    rw [hno, hn10]
    show 0 < a * b - b * (a - w)
    nlinarith [mul_pos (show (0:ℤ) < b by omega) (show (0:ℤ) < w by omega)]
  have r_o01 : region ⟨a, b⟩ ⟨a, b - h⟩ = 3 := by
    refine region_eq_three ?_
    rw [hno, hn01]
    show a * (b - h) - b * a < 0
    nlinarith [mul_pos (show (0:ℤ) < a by omega) (show (0:ℤ) < h by omega)]
  have f_dp10 : cross ⟨dx, dy⟩ ⟨a - w, b⟩ < 0 := by
    show dx * b - dy * (a - w) < 0
    nlinarith [mul_le_mul_of_nonneg_left hdy (show (0:ℤ) ≤ w - a by omega),
      mul_le_mul_of_nonneg_left hdx2 (show (0:ℤ) ≤ b by omega), hab]
  have f_dp11 : cross ⟨dx, dy⟩ ⟨a - w, b - h⟩ < 0 := by
    show dx * (b - h) - dy * (a - w) < 0
    nlinarith [mul_le_mul_of_nonneg_left hdx1 (show (0:ℤ) ≤ h - b by omega),
      mul_le_mul_of_nonneg_left hdy (show (0:ℤ) ≤ w - a by omega)]
  have f_p11d : 0 < cross ⟨a - w, b - h⟩ ⟨dx, dy⟩ := by
    show 0 < (a - w) * dy - (b - h) * dx
    have hneg : cross ⟨dx, dy⟩ ⟨a - w, b - h⟩ < 0 := f_dp11
    unfold cross at hneg
    nlinarith [hneg]
  have f_dp01 : 0 < cross ⟨dx, dy⟩ ⟨a, b - h⟩ := by
    show 0 < dx * (b - h) - dy * a
    nlinarith [mul_le_mul_of_nonneg_left hdx2 (show (0:ℤ) ≤ h - b by omega),
      mul_le_mul_of_nonneg_left hdy (show (0:ℤ) ≤ a by omega)]
  rcases lt_trichotomy (a * dy - b * dx) 0 with hs | hs | hs
  · -- displacement in the (180, 360) half: region 3
    have r_od : region ⟨a, b⟩ ⟨dx, dy⟩ = 3 := by
      refine region_eq_three ?_
      rw [hno, hnd]
      exact hs
    have f_bottom : angLt ⟨a, b⟩ ⟨dx, dy⟩ ⟨a - w, b⟩ = false :=
      angLt_false_of_region_gt (by rw [r_od, r_o10]; omega)
    have f_left : angLt ⟨a, b⟩ ⟨dx, dy⟩ ⟨a - w, b - h⟩ = false := by
      refine angLt_false_of (by rw [r_od]; exact region_le_three _ _) ?_
      rw [hnd, hn11]
      exact le_of_lt f_dp11
    have t_top1 : angLt ⟨a, b⟩ ⟨a - w, b - h⟩ ⟨dx, dy⟩ = true := by
      refine angLt_true_of (by rw [r_od]; exact region_le_three _ _) ?_
      rw [hn11, hnd]
      exact f_p11d
    have t_top2 : angLt ⟨a, b⟩ ⟨dx, dy⟩ ⟨a, b - h⟩ = true := by
      refine angLt_true_of_cross (by rw [r_od, r_o01]) ?_
      rw [hnd, hn01]
      exact f_dp01
    unfold classifyAux
    rw [f_bottom, f_left, t_top1, t_top2]
    simp
  · -- displacement exactly opposite to the reference spoke direction: region 2
    have h0 : b * dx = a * dy := by linarith
    have hdot : a * dx + b * dy < 0 := by
      by_contra hpos
      push_neg at hpos
      have key : b * (a * dx + b * dy) = (a * a + b * b) * dy := by
        linear_combination a * h0
      nlinarith [mul_nonneg (show (0:ℤ) ≤ b by omega) hpos, key,
        mul_pos (show (0:ℤ) < a * a + b * b by nlinarith) (show (0:ℤ) < -dy by omega)]
    have r_od : region ⟨a, b⟩ ⟨dx, dy⟩ = 2 := by
      refine region_eq_two ?_ ?_
      · rw [hno, hnd]
        show a * dy - b * dx = 0
        exact hs
      · rw [hno, hnd]
        show a * dx + b * dy ≤ 0
        exact le_of_lt hdot
    have r_o11 : region ⟨a, b⟩ ⟨a - w, b - h⟩ = 1 := by
      refine region_eq_one ?_
      rw [hno, hn11]
      show 0 < a * (b - h) - b * (a - w)
      nlinarith [h0, mul_le_mul_of_nonneg_left hdy (show (0:ℤ) ≤ a by omega),
        mul_le_mul_of_nonneg_left hdx1 (show (0:ℤ) ≤ b by omega)]
    have f_bottom : angLt ⟨a, b⟩ ⟨dx, dy⟩ ⟨a - w, b⟩ = false :=
      angLt_false_of_region_gt (by rw [r_od, r_o10]; omega)
    have f_left : angLt ⟨a, b⟩ ⟨dx, dy⟩ ⟨a - w, b - h⟩ = false :=
      angLt_false_of_region_gt (by rw [r_od, r_o11]; omega)
    have t_top1 : angLt ⟨a, b⟩ ⟨a - w, b - h⟩ ⟨dx, dy⟩ = true :=
      angLt_true_of_region_lt (by rw [r_od, r_o11]; omega)
    have t_top2 : angLt ⟨a, b⟩ ⟨dx, dy⟩ ⟨a, b - h⟩ = true :=
      angLt_true_of_region_lt (by rw [r_od, r_o01]; omega)
    unfold classifyAux
    rw [f_bottom, f_left, t_top1, t_top2]
    simp
  · -- displacement in the (0, 180) half: region 1, forcing the p11 spoke there too
    have r_od : region ⟨a, b⟩ ⟨dx, dy⟩ = 1 := by
      refine region_eq_one ?_
      rw [hno, hnd]
      exact hs
    have r_o11 : region ⟨a, b⟩ ⟨a - w, b - h⟩ = 1 := by
      refine region_eq_one ?_
      rw [hno, hn11]
      show 0 < a * (b - h) - b * (a - w)
      nlinarith [hs, mul_le_mul_of_nonneg_left hdy (show (0:ℤ) ≤ a by omega),
        mul_le_mul_of_nonneg_left hdx1 (show (0:ℤ) ≤ b by omega)]
    have f_bottom : angLt ⟨a, b⟩ ⟨dx, dy⟩ ⟨a - w, b⟩ = false := by
      refine angLt_false_of (by rw [r_od, r_o10]) ?_
      rw [hnd, hn10]
      exact le_of_lt f_dp10
    have f_left : angLt ⟨a, b⟩ ⟨dx, dy⟩ ⟨a - w, b - h⟩ = false := by
      refine angLt_false_of (by rw [r_od, r_o11]) ?_
      rw [hnd, hn11]
      exact le_of_lt f_dp11
    have t_top1 : angLt ⟨a, b⟩ ⟨a - w, b - h⟩ ⟨dx, dy⟩ = true := by
      refine angLt_true_of_cross (by rw [r_od, r_o11]) ?_
      rw [hn11, hnd]
      exact f_p11d
    have t_top2 : angLt ⟨a, b⟩ ⟨dx, dy⟩ ⟨a, b - h⟩ = true :=
      angLt_true_of_region_lt (by rw [r_od, r_o01]; omega)
    unfold classifyAux
    rw [f_bottom, f_left, t_top1, t_top2]
    simp

/-- Geometric core, approach from the right: the displacement points in the
negative x direction, inside the "left" sector, so the classifier labels
the collision with the mover's left edge. -/
lemma classify_core_rightof (a b w h dx dy : Int) (ha : 1 ≤ a) (hb : 1 ≤ b)
    (haw : a ≤ w - a) (hbh : b ≤ h - b) (hbh1 : h - b ≤ b + 1)
    (hdx : dx ≤ -(w - a) - 1) (hdy1 : -(h - b) ≤ dy) (hdy2 : dy ≤ b) :
    classifyAux ⟨a, b⟩ ⟨a - w, b⟩ ⟨a - w, b - h⟩ ⟨a, b - h⟩ ⟨dx, dy⟩ = some Dir.left := by
  have hno : normAng ⟨a, b⟩ = ⟨a, b⟩ := normAng_of_x_ne a b (by omega)
  have hnd : normAng ⟨dx, dy⟩ = ⟨dx, dy⟩ := normAng_of_x_ne dx dy (by omega)
  have hn10 : normAng ⟨a - w, b⟩ = ⟨a - w, b⟩ := normAng_of_y_ne (a - w) b (by omega)
  have hn11 : normAng ⟨a - w, b - h⟩ = ⟨a - w, b - h⟩ := normAng_of_y_ne (a - w) (b - h) (by omega)
  have r_o10 : region ⟨a, b⟩ ⟨a - w, b⟩ = 1 := by
    refine region_eq_one ?_
    rw [hno, hn10]
    show 0 < a * b - b * (a - w)
    nlinarith [mul_pos (show (0:ℤ) < b by omega) (show (0:ℤ) < w by omega)]
  have r11pos : 1 ≤ region ⟨a, b⟩ ⟨a - w, b - h⟩ := by
    rcases lt_trichotomy (cross (normAng ⟨a, b⟩) (normAng ⟨a - w, b - h⟩)) 0 with hc | hc | hc
    · rw [region_eq_three hc]
      omega
    · have hd : dot (normAng ⟨a, b⟩) (normAng ⟨a - w, b - h⟩) ≤ 0 := by
        rw [hno, hn11]
        show a * (a - w) + b * (b - h) ≤ 0
        nlinarith [mul_le_mul_of_nonneg_left (show a - w ≤ -a by omega) (show (0:ℤ) ≤ a by omega),
          mul_le_mul_of_nonneg_left (show b - h ≤ -b by omega) (show (0:ℤ) ≤ b by omega)]
      rw [region_eq_two hc hd]
      omega
    · rw [region_eq_one hc]
  have f_dp10 : cross ⟨dx, dy⟩ ⟨a - w, b⟩ < 0 := by
    show dx * b - dy * (a - w) < 0
    nlinarith [mul_le_mul_of_nonneg_left hdx (show (0:ℤ) ≤ b by omega),
      mul_le_mul_of_nonneg_left hdy2 (show (0:ℤ) ≤ w - a by omega)]
  have f_p10d : 0 < cross ⟨a - w, b⟩ ⟨dx, dy⟩ := by
    show 0 < (a - w) * dy - b * dx
    have hneg := f_dp10
    unfold cross at hneg
    nlinarith [hneg]
  have f_dp11 : 0 < cross ⟨dx, dy⟩ ⟨a - w, b - h⟩ := by
    show 0 < dx * (b - h) - dy * (a - w)
    nlinarith [mul_le_mul_of_nonneg_left hdx (show (0:ℤ) ≤ h - b by omega),
      mul_le_mul_of_nonneg_left hdy1 (show (0:ℤ) ≤ w - a by omega)]
  rcases lt_trichotomy (a * dy - b * dx) 0 with hs | hs | hs
  · -- region 3: the p11 spoke is then forced into region 3 as well
    have r_od : region ⟨a, b⟩ ⟨dx, dy⟩ = 3 := by
      refine region_eq_three ?_
      rw [hno, hnd]
      exact hs
    have r_o11 : region ⟨a, b⟩ ⟨a - w, b - h⟩ = 3 := by
      refine region_eq_three ?_
      rw [hno, hn11]
      show a * (b - h) - b * (a - w) < 0
      nlinarith [hs, mul_le_mul_of_nonneg_left hdy1 (show (0:ℤ) ≤ a by omega),
        mul_le_mul_of_nonneg_left hdx (show (0:ℤ) ≤ b by omega)]
    have f_bottom : angLt ⟨a, b⟩ ⟨dx, dy⟩ ⟨a - w, b⟩ = false :=
      angLt_false_of_region_gt (by rw [r_od, r_o10]; omega)
    have t_left1 : angLt ⟨a, b⟩ ⟨a - w, b⟩ ⟨dx, dy⟩ = true :=
      angLt_true_of_region_lt (by rw [r_od, r_o10]; omega)
    have t_left2 : angLt ⟨a, b⟩ ⟨dx, dy⟩ ⟨a - w, b - h⟩ = true := by
      refine angLt_true_of_cross (by rw [r_od, r_o11]) ?_
      rw [hnd, hn11]
      exact f_dp11
    unfold classifyAux
    rw [f_bottom, t_left1, t_left2]
    simp
  · -- region 2: the cross-product tie forces the p11 spoke into region 3
    have h0 : b * dx = a * dy := by linarith
    have hdot : a * dx + b * dy < 0 := by
      by_contra hpos
      push_neg at hpos
      have key : a * (a * dx + b * dy) = (a * a + b * b) * dx := by
        linear_combination (-b) * h0
      nlinarith [mul_nonneg (show (0:ℤ) ≤ a by omega) hpos, key,
        mul_pos (show (0:ℤ) < a * a + b * b by nlinarith) (show (0:ℤ) < -dx by omega)]
    have r_od : region ⟨a, b⟩ ⟨dx, dy⟩ = 2 := by
      refine region_eq_two ?_ ?_
      · rw [hno, hnd]
        show a * dy - b * dx = 0
        exact hs
      · rw [hno, hnd]
        show a * dx + b * dy ≤ 0
        exact le_of_lt hdot
    have r_o11 : region ⟨a, b⟩ ⟨a - w, b - h⟩ = 3 := by
      refine region_eq_three ?_
      rw [hno, hn11]
      show a * (b - h) - b * (a - w) < 0
      nlinarith [h0, mul_le_mul_of_nonneg_left hdx (show (0:ℤ) ≤ b by omega),
        mul_le_mul_of_nonneg_left hdy1 (show (0:ℤ) ≤ a by omega)]
    have f_bottom : angLt ⟨a, b⟩ ⟨dx, dy⟩ ⟨a - w, b⟩ = false :=
      angLt_false_of_region_gt (by rw [r_od, r_o10]; omega)
    have t_left1 : angLt ⟨a, b⟩ ⟨a - w, b⟩ ⟨dx, dy⟩ = true :=
      angLt_true_of_region_lt (by rw [r_od, r_o10]; omega)
    have t_left2 : angLt ⟨a, b⟩ ⟨dx, dy⟩ ⟨a - w, b - h⟩ = true :=
      angLt_true_of_region_lt (by rw [r_od, r_o11]; omega)
    unfold classifyAux
    rw [f_bottom, t_left1, t_left2]
    simp
  · -- region 1
    have r_od : region ⟨a, b⟩ ⟨dx, dy⟩ = 1 := by
      refine region_eq_one ?_
      rw [hno, hnd]
      exact hs
    have f_bottom : angLt ⟨a, b⟩ ⟨dx, dy⟩ ⟨a - w, b⟩ = false := by
      refine angLt_false_of (by rw [r_od, r_o10]) ?_
      rw [hnd, hn10]
      exact le_of_lt f_dp10
    have t_left1 : angLt ⟨a, b⟩ ⟨a - w, b⟩ ⟨dx, dy⟩ = true := by
      refine angLt_true_of_cross (by rw [r_o10, r_od]) ?_
      rw [hn10, hnd]
      exact f_p10d
    have t_left2 : angLt ⟨a, b⟩ ⟨dx, dy⟩ ⟨a - w, b - h⟩ = true := by
      refine angLt_true_of (by rw [r_od]; exact r11pos) ?_
      rw [hnd, hn11]
      exact f_dp11
    unfold classifyAux
    rw [f_bottom, t_left1, t_left2]
    simp

end Collision

namespace Collision

/-- C1 counterexample: the mover `(-3, 0, 4, 4)` approaches the static
square `(0, 0, 4, 4)` cleanly from the left (its center lies left of the
static left edge, at the same height band), yet the classifier returns
`right` — the label of the mover's colliding edge — and not `left` as the
claim states. -/
theorem c1_counterexample :
    collideRect ⟨-3, 0, 4, 4⟩ ⟨0, 0, 4, 4⟩ = true ∧
    Rect.centerx ⟨-3, 0, 4, 4⟩ < Rect.left ⟨0, 0, 4, 4⟩ ∧
    Rect.top ⟨0, 0, 4, 4⟩ ≤ Rect.centery ⟨-3, 0, 4, 4⟩ ∧
    Rect.centery ⟨-3, 0, 4, 4⟩ ≤ Rect.bottom ⟨0, 0, 4, 4⟩ ∧
    checkCollisionDirection ⟨-3, 0, 4, 4⟩ ⟨0, 0, 4, 4⟩ = some Dir.right ∧
    checkCollisionDirection ⟨-3, 0, 4, 4⟩ ⟨0, 0, 4, 4⟩ ≠ some Dir.left := by
  decide

/-- C1 (amended): for overlapping rectangles with a nondegenerate static
rectangle, a clean single-axis approach (the mover's center beyond exactly
one edge band of the static rectangle) is classified by the mover's
colliding edge: mover above gives `bottom`, mover to the left gives
`right`, mover below gives `top`, mover to the right gives `left`. -/
theorem c1_amended (m s : Rect) (hw : 2 ≤ s.w) (hh : 2 ≤ s.h)
    (hc : collideRect m s = true) :
    (m.centery < s.top → s.left ≤ m.centerx → m.centerx ≤ s.right →
      checkCollisionDirection m s = some Dir.bottom) ∧
    (m.centerx < s.left → s.top ≤ m.centery → m.centery ≤ s.bottom →
      checkCollisionDirection m s = some Dir.right) ∧
    (s.bottom < m.centery → s.left ≤ m.centerx → m.centerx ≤ s.right →
      checkCollisionDirection m s = some Dir.top) ∧
    (s.right < m.centerx → s.top ≤ m.centery → m.centery ≤ s.bottom →
      checkCollisionDirection m s = some Dir.left) := by
  have hbr := checkCollisionDirection_eq_aux m s hc
  simp only [Rect.centerx, Rect.centery, Rect.left, Rect.right, Rect.top, Rect.bottom] at hbr ⊢
  refine ⟨?_, ?_, ?_, ?_⟩ <;> intro h1 h2 h3 <;> rw [hbr]
  · apply classify_core_above <;> omega
  · apply classify_core_leftof <;> omega
  · apply classify_core_below <;> omega
  · apply classify_core_rightof <;> omega

/-- C1 witness: a concrete clean approach from above is classified
`bottom`. -/
theorem c1_witness :
    checkCollisionDirection ⟨0, -3, 4, 4⟩ ⟨0, 0, 4, 4⟩ = some Dir.bottom :=
  (c1_amended ⟨0, -3, 4, 4⟩ ⟨0, 0, 4, 4⟩ (by decide) (by decide) (by decide)).1
    (by decide) (by decide) (by decide)

end Collision

namespace Collision

lemma normAng_zero : normAng ⟨0, 0⟩ = ⟨1, 0⟩ := by
  unfold normAng
  rw [if_pos ⟨rfl, rfl⟩]

/-- Geometric core, coincident centers: the zero displacement carries the
atan2 angle of the `(1, 0)` direction, which falls strictly inside the
last, "right", sector. -/
lemma classify_core_center (a b w h : Int) (ha : 1 ≤ a) (hb : 1 ≤ b)
    (haw : a ≤ w - a) (hbh : b ≤ h - b) :
    classifyAux ⟨a, b⟩ ⟨a - w, b⟩ ⟨a - w, b - h⟩ ⟨a, b - h⟩ ⟨0, 0⟩ = some Dir.right := by
  have hno : normAng ⟨a, b⟩ = ⟨a, b⟩ := normAng_of_x_ne a b (by omega)
  have hn10 : normAng ⟨a - w, b⟩ = ⟨a - w, b⟩ := normAng_of_y_ne (a - w) b (by omega)
  have hn11 : normAng ⟨a - w, b - h⟩ = ⟨a - w, b - h⟩ := normAng_of_y_ne (a - w) (b - h) (by omega)
  have hn01 : normAng ⟨a, b - h⟩ = ⟨a, b - h⟩ := normAng_of_x_ne a (b - h) (by omega)
  have r_od : region ⟨a, b⟩ ⟨0, 0⟩ = 3 := by
    refine region_eq_three ?_
    rw [hno, normAng_zero]
    show a * 0 - b * 1 < 0
    omega
  have r_o10 : region ⟨a, b⟩ ⟨a - w, b⟩ = 1 := by
    refine region_eq_one ?_
    rw [hno, hn10]
    show 0 < a * b - b * (a - w)
    nlinarith [mul_pos (show (0:ℤ) < b by omega) (show (0:ℤ) < w by omega)]
  have r_o01 : region ⟨a, b⟩ ⟨a, b - h⟩ = 3 := by
    refine region_eq_three ?_
    rw [hno, hn01]
    show a * (b - h) - b * a < 0
    nlinarith [mul_pos (show (0:ℤ) < a by omega) (show (0:ℤ) < h by omega)]
  have f_bottom : angLt ⟨a, b⟩ ⟨0, 0⟩ ⟨a - w, b⟩ = false :=
    angLt_false_of_region_gt (by rw [r_od, r_o10]; omega)
  have f_left : angLt ⟨a, b⟩ ⟨0, 0⟩ ⟨a - w, b - h⟩ = false := by
    refine angLt_false_of (by rw [r_od]; exact region_le_three _ _) ?_
    rw [normAng_zero, hn11]
    show 1 * (b - h) - 0 * (a - w) ≤ 0
    omega
  have f_top : angLt ⟨a, b⟩ ⟨0, 0⟩ ⟨a, b - h⟩ = false := by
    refine angLt_false_of (by rw [r_od, r_o01]) ?_
    rw [normAng_zero, hn01]
    show 1 * (b - h) - 0 * a ≤ 0
    omega
  have t_right : angLt ⟨a, b⟩ ⟨a, b - h⟩ ⟨0, 0⟩ = true := by
    refine angLt_true_of_cross (by rw [r_o01, r_od]) ?_
    rw [hn01, normAng_zero]
    show 0 < a * 0 - (b - h) * 1
    omega
  unfold classifyAux
  rw [f_bottom, f_left, f_top, t_right]
  simp

/-- C10 counterexample: a mover and a static rectangle with coincident
centers are classified (as `right`, not "no side"), and the Basic Resolver
does change the mover (rectangle and x velocity), contrary to the claim. -/
theorem c10_counterexample :
    Rect.centerx ⟨1, 1, 2, 2⟩ = Rect.centerx ⟨0, 0, 4, 4⟩ ∧
    Rect.centery ⟨1, 1, 2, 2⟩ = Rect.centery ⟨0, 0, 4, 4⟩ ∧
    collideRect ⟨1, 1, 2, 2⟩ ⟨0, 0, 4, 4⟩ = true ∧
    checkCollisionDirection ⟨1, 1, 2, 2⟩ ⟨0, 0, 4, 4⟩ ≠ none ∧
    resolveBasicCollision ⟨⟨1, 1, 2, 2⟩, 5, 7, 0, 0, false, 1, 97⟩ [⟨0, 0, 4, 4⟩] ≠
      ⟨⟨1, 1, 2, 2⟩, 5, 7, 0, 0, false, 1, 97⟩ := by
  decide

/-- C10 (amended): for an overlapping pair with coincident centers and a
nondegenerate static rectangle, the classifier returns `right` (the zero
displacement has the atan2 angle of the positive x direction), and the
Basic Resolver therefore snaps the mover's right edge to the obstacle's
left edge and zeroes its horizontal velocity — it does not skip the
obstacle. -/
theorem c10_amended (m s : Rect) (hw : 2 ≤ s.w) (hh : 2 ≤ s.h)
    (hc : collideRect m s = true) (hx : m.centerx = s.centerx)
    (hy : m.centery = s.centery) :
    checkCollisionDirection m s = some Dir.right ∧
    ∀ p : Player, p.rect = m →
      resolveBasicCollision p [s] = { p with rect := m.setRight s.left, velx := 0 } := by
  have hbr := checkCollisionDirection_eq_aux m s hc
  have hdx : s.centerx - m.centerx = 0 := by omega
  have hdy : s.centery - m.centery = 0 := by omega
  rw [hdx, hdy] at hbr
  have hmain : checkCollisionDirection m s = some Dir.right := by
    rw [hbr]
    apply classify_core_center <;>
      simp only [Rect.centerx, Rect.centery] at * <;> omega
  refine ⟨hmain, ?_⟩
  intro p hp
  unfold resolveBasicCollision
  have hcol : collideRect p.rect s = true := by rw [hp]; exact hc
  have hfil : [s].filter (fun wall => collideRect p.rect wall) = [s] := by
    simp [hcol]
  rw [hfil]
  show basicStep p s = _
  unfold basicStep
  rw [hp, hmain]

/-- C10 witness: concrete coincident-center pair, classified `right` and
actively resolved. -/
theorem c10_witness :
    checkCollisionDirection ⟨0, 0, 4, 4⟩ ⟨0, 0, 4, 4⟩ = some Dir.right ∧
    resolveBasicCollision ⟨⟨0, 0, 4, 4⟩, 5, 7, 0, 0, false, 1, 97⟩ [⟨0, 0, 4, 4⟩] =
      { (⟨⟨0, 0, 4, 4⟩, 5, 7, 0, 0, false, 1, 97⟩ : Player) with
          rect := Rect.setRight ⟨0, 0, 4, 4⟩ (Rect.left ⟨0, 0, 4, 4⟩), velx := 0 } := by
  have h := c10_amended ⟨0, 0, 4, 4⟩ ⟨0, 0, 4, 4⟩ (by decide) (by decide) (by decide)
    (by decide) (by decide)
  exact ⟨h.1, h.2 _ rfl⟩

end Collision

namespace Collision

lemma cross_antisymm (a b : Vec2) : cross a b = -cross b a := by
  unfold cross
  ring

lemma cross_pos_of_region_one {o v : Vec2} (h : region o v = 1) :
    0 < cross (normAng o) (normAng v) := by
  unfold region at h
  split_ifs at h with h1 h2 h3 <;> first | exact h1 | omega

lemma cross_neg_of_region_three {o v : Vec2} (h : region o v = 3) :
    cross (normAng o) (normAng v) < 0 := by
  unfold region at h
  split_ifs at h with h1 h2 h3 <;> first | exact h2 | omega

lemma cross_eq_zero_of_region_two {o v : Vec2} (h : region o v = 2) :
    cross (normAng o) (normAng v) = 0 := by
  unfold region at h
  split_ifs at h with h1 h2 h3 <;> omega

/-- Unpacks relative-angle equality: both strict comparisons failing means
the two vectors lie in the same region with vanishing cross product. -/
lemma angEq_dest {o v u : Vec2} (h : angEq o v u = true) :
    region o v = region o u ∧ cross (normAng v) (normAng u) = 0 := by
  unfold angEq at h
  simp only [Bool.and_eq_true, Bool.not_eq_true'] at h
  obtain ⟨h1, h2⟩ := h
  unfold angLt at h1 h2
  by_cases hr : region o v = region o u
  · refine ⟨hr, ?_⟩
    rw [if_pos hr] at h1
    rw [if_pos hr.symm] at h2
    simp only [decide_eq_false_iff_not, not_lt] at h1 h2
    have ha := cross_antisymm (normAng v) (normAng u)
    omega
  · exfalso
    rw [if_neg hr] at h1
    rw [if_neg (fun hh => hr hh.symm)] at h2
    simp only [decide_eq_false_iff_not, not_lt] at h1 h2
    omega

/-- Boundary-angle core, displacement angle equal to the reference spoke
angle (angle 0): every strict sector test fails. -/
lemma classify_core_bnd00 (a b w h dx dy : Int) (ha : 1 ≤ a) (hb : 1 ≤ b)
    (haw : a ≤ w - a) (hbh : b ≤ h - b)
    (hEq : angEq ⟨a, b⟩ ⟨dx, dy⟩ ⟨a, b⟩ = true) :
    classifyAux ⟨a, b⟩ ⟨a - w, b⟩ ⟨a - w, b - h⟩ ⟨a, b - h⟩ ⟨dx, dy⟩ = none := by
  obtain ⟨hreg, hcr⟩ := angEq_dest hEq
  have hno : normAng ⟨a, b⟩ = ⟨a, b⟩ := normAng_of_x_ne a b (by omega)
  have hn10 : normAng ⟨a - w, b⟩ = ⟨a - w, b⟩ := normAng_of_y_ne (a - w) b (by omega)
  have hn11 : normAng ⟨a - w, b - h⟩ = ⟨a - w, b - h⟩ := normAng_of_y_ne (a - w) (b - h) (by omega)
  have r_oo : region ⟨a, b⟩ ⟨a, b⟩ = 0 := by
    refine region_eq_zero ?_ ?_
    · rw [hno]
      show a * b - b * a = 0
      ring
    · rw [hno]
      show 0 < a * a + b * b
      nlinarith
  have r_od : region ⟨a, b⟩ ⟨dx, dy⟩ = 0 := by rw [hreg, r_oo]
  have r_o10 : region ⟨a, b⟩ ⟨a - w, b⟩ = 1 := by
    refine region_eq_one ?_
    rw [hno, hn10]
    show 0 < a * b - b * (a - w)
    nlinarith [mul_pos (show (0:ℤ) < b by omega) (show (0:ℤ) < w by omega)]
  have r11pos : 1 ≤ region ⟨a, b⟩ ⟨a - w, b - h⟩ := by
    rcases lt_trichotomy (cross (normAng ⟨a, b⟩) (normAng ⟨a - w, b - h⟩)) 0 with hc | hc | hc
    · rw [region_eq_three hc]
      omega
    · have hd : dot (normAng ⟨a, b⟩) (normAng ⟨a - w, b - h⟩) ≤ 0 := by
        rw [hno, hn11]
        show a * (a - w) + b * (b - h) ≤ 0
        nlinarith [mul_le_mul_of_nonneg_left (show a - w ≤ -a by omega) (show (0:ℤ) ≤ a by omega),
          mul_le_mul_of_nonneg_left (show b - h ≤ -b by omega) (show (0:ℤ) ≤ b by omega)]
      rw [region_eq_two hc hd]
      omega
    · rw [region_eq_one hc]
  have r_o01 : region ⟨a, b⟩ ⟨a, b - h⟩ = 3 := by
    refine region_eq_three ?_
    rw [hno, normAng_of_x_ne a (b - h) (by omega)]
    show a * (b - h) - b * a < 0
    nlinarith [mul_pos (show (0:ℤ) < a by omega) (show (0:ℤ) < h by omega)]
  have f1 : angLt ⟨a, b⟩ ⟨a, b⟩ ⟨dx, dy⟩ = false := by
    refine angLt_false_of (by rw [r_od, r_oo]) ?_
    have := cross_antisymm (normAng ⟨a, b⟩) (normAng ⟨dx, dy⟩)
    omega
  have f2 : angLt ⟨a, b⟩ ⟨a - w, b⟩ ⟨dx, dy⟩ = false :=
    angLt_false_of_region_gt (by rw [r_od, r_o10]; omega)
  have f3 : angLt ⟨a, b⟩ ⟨a - w, b - h⟩ ⟨dx, dy⟩ = false :=
    angLt_false_of_region_gt (by rw [r_od]; omega)
  have f4 : angLt ⟨a, b⟩ ⟨a, b - h⟩ ⟨dx, dy⟩ = false :=
    angLt_false_of_region_gt (by rw [r_od, r_o01]; omega)
  unfold classifyAux
  rw [f1, f2, f3, f4]
  simp

end Collision

namespace Collision

/-- Boundary-angle core, displacement angle equal to the top-right spoke
angle (`angle_10`): every strict sector test fails. -/
lemma classify_core_bnd10 (a b w h dx dy : Int) (ha : 1 ≤ a) (hb : 1 ≤ b)
    (haw : a ≤ w - a) (hbh : b ≤ h - b)
    (hEq : angEq ⟨a, b⟩ ⟨dx, dy⟩ ⟨a - w, b⟩ = true) :
    classifyAux ⟨a, b⟩ ⟨a - w, b⟩ ⟨a - w, b - h⟩ ⟨a, b - h⟩ ⟨dx, dy⟩ = none := by
  obtain ⟨hreg, hcr⟩ := angEq_dest hEq
  have hno : normAng ⟨a, b⟩ = ⟨a, b⟩ := normAng_of_x_ne a b (by omega)
  have hn10 : normAng ⟨a - w, b⟩ = ⟨a - w, b⟩ := normAng_of_y_ne (a - w) b (by omega)
  have hn11 : normAng ⟨a - w, b - h⟩ = ⟨a - w, b - h⟩ := normAng_of_y_ne (a - w) (b - h) (by omega)
  have r_o10 : region ⟨a, b⟩ ⟨a - w, b⟩ = 1 := by
    refine region_eq_one ?_
    rw [hno, hn10]
    show 0 < a * b - b * (a - w)
    nlinarith [mul_pos (show (0:ℤ) < b by omega) (show (0:ℤ) < w by omega)]
  by_cases hd0 : dx = 0 ∧ dy = 0
  · exfalso
    have hz : normAng ⟨dx, dy⟩ = ⟨1, 0⟩ := by rw [hd0.1, hd0.2]; exact normAng_zero
    have hrd : region ⟨a, b⟩ ⟨dx, dy⟩ = 3 := by
      refine region_eq_three ?_
      rw [hno, hz]
      show a * 0 - b * 1 < 0
      omega
    omega
  have hnd : normAng ⟨dx, dy⟩ = ⟨dx, dy⟩ := normAng_of_ne _ hd0
  have r_od : region ⟨a, b⟩ ⟨dx, dy⟩ = 1 := by rw [hreg, r_o10]
  have hcod2 : 0 < a * dy - b * dx := by
    have hc := cross_pos_of_region_one r_od
    rw [hno, hnd] at hc
    exact hc
  rw [hnd, hn10] at hcr
  have hcr2 : dx * b - dy * (a - w) = 0 := hcr
  have hwdy : 0 < w * dy := by nlinarith [hcod2, hcr2]
  have hdy_pos : 0 < dy := by
    by_contra hcon
    push_neg at hcon
    nlinarith [hwdy, mul_nonneg (show (0:ℤ) ≤ w by omega) (show (0:ℤ) ≤ -dy by omega)]
  have r11pos : 1 ≤ region ⟨a, b⟩ ⟨a - w, b - h⟩ := by
    rcases lt_trichotomy (cross (normAng ⟨a, b⟩) (normAng ⟨a - w, b - h⟩)) 0 with hc | hc | hc
    · rw [region_eq_three hc]
      omega
    · have hd : dot (normAng ⟨a, b⟩) (normAng ⟨a - w, b - h⟩) ≤ 0 := by
        rw [hno, hn11]
        show a * (a - w) + b * (b - h) ≤ 0
        nlinarith [mul_le_mul_of_nonneg_left (show a - w ≤ -a by omega) (show (0:ℤ) ≤ a by omega),
          mul_le_mul_of_nonneg_left (show b - h ≤ -b by omega) (show (0:ℤ) ≤ b by omega)]
      rw [region_eq_two hc hd]
      omega
    · rw [region_eq_one hc]
  have r_o01 : region ⟨a, b⟩ ⟨a, b - h⟩ = 3 := by
    refine region_eq_three ?_
    rw [hno, normAng_of_x_ne a (b - h) (by omega)]
    show a * (b - h) - b * a < 0
    nlinarith [mul_pos (show (0:ℤ) < a by omega) (show (0:ℤ) < h by omega)]
  have f_b : angLt ⟨a, b⟩ ⟨dx, dy⟩ ⟨a - w, b⟩ = false := by
    refine angLt_false_of (by rw [r_od, r_o10]) ?_
    rw [hnd, hn10]
    exact le_of_eq hcr
  have f_l : angLt ⟨a, b⟩ ⟨a - w, b⟩ ⟨dx, dy⟩ = false := by
    refine angLt_false_of (by rw [r_od, r_o10]) ?_
    rw [hn10, hnd]
    have hanti := cross_antisymm (⟨a - w, b⟩ : Vec2) ⟨dx, dy⟩
    omega
  have f_t : angLt ⟨a, b⟩ ⟨a - w, b - h⟩ ⟨dx, dy⟩ = false := by
    refine angLt_false_of (by rw [r_od]; exact r11pos) ?_
    rw [hn11, hnd]
    show (a - w) * dy - (b - h) * dx ≤ 0
    by_contra hcon
    push_neg at hcon
    have key : b * ((a - w) * dy - (b - h) * dx) = -((w - a) * (h * dy)) := by
      linear_combination (h - b) * hcr2
    nlinarith [key, mul_pos (show (0:ℤ) < b by omega) hcon,
      mul_pos (mul_pos (show (0:ℤ) < w - a by omega) (show (0:ℤ) < h by omega)) hdy_pos]
  have f_r : angLt ⟨a, b⟩ ⟨a, b - h⟩ ⟨dx, dy⟩ = false :=
    angLt_false_of_region_gt (by rw [r_od, r_o01]; omega)
  unfold classifyAux
  rw [f_b, f_l, f_t, f_r]
  simp

/-- Boundary-angle core, displacement angle equal to the bottom-right spoke
angle (`angle_11`): every strict sector test fails. -/
lemma classify_core_bnd11 (a b w h dx dy : Int) (ha : 1 ≤ a) (hb : 1 ≤ b)
    (haw : a ≤ w - a) (hbh : b ≤ h - b)
    (hEq : angEq ⟨a, b⟩ ⟨dx, dy⟩ ⟨a - w, b - h⟩ = true) :
    classifyAux ⟨a, b⟩ ⟨a - w, b⟩ ⟨a - w, b - h⟩ ⟨a, b - h⟩ ⟨dx, dy⟩ = none := by
  obtain ⟨hreg, hcr⟩ := angEq_dest hEq
  have hno : normAng ⟨a, b⟩ = ⟨a, b⟩ := normAng_of_x_ne a b (by omega)
  have hn10 : normAng ⟨a - w, b⟩ = ⟨a - w, b⟩ := normAng_of_y_ne (a - w) b (by omega)
  have hn11 : normAng ⟨a - w, b - h⟩ = ⟨a - w, b - h⟩ := normAng_of_y_ne (a - w) (b - h) (by omega)
  have hn01 : normAng ⟨a, b - h⟩ = ⟨a, b - h⟩ := normAng_of_x_ne a (b - h) (by omega)
  have r_o10 : region ⟨a, b⟩ ⟨a - w, b⟩ = 1 := by
    refine region_eq_one ?_
    rw [hno, hn10]
    show 0 < a * b - b * (a - w)
    nlinarith [mul_pos (show (0:ℤ) < b by omega) (show (0:ℤ) < w by omega)]
  have r_o01 : region ⟨a, b⟩ ⟨a, b - h⟩ = 3 := by
    refine region_eq_three ?_
    rw [hno, hn01]
    show a * (b - h) - b * a < 0
    nlinarith [mul_pos (show (0:ℤ) < a by omega) (show (0:ℤ) < h by omega)]
  by_cases hd0 : dx = 0 ∧ dy = 0
  · exfalso
    have hz : normAng ⟨dx, dy⟩ = ⟨1, 0⟩ := by rw [hd0.1, hd0.2]; exact normAng_zero
    rw [hz, hn11] at hcr
    have hval : (1 : ℤ) * (b - h) - 0 * (a - w) = 0 := hcr
    omega
  have hnd : normAng ⟨dx, dy⟩ = ⟨dx, dy⟩ := normAng_of_ne _ hd0
  rw [hnd, hn11] at hcr
  have hcr2 : dx * (b - h) - dy * (a - w) = 0 := hcr
  have f_l : angLt ⟨a, b⟩ ⟨dx, dy⟩ ⟨a - w, b - h⟩ = false := by
    refine angLt_false_of (by rw [hreg]) ?_
    rw [hnd, hn11]
    exact le_of_eq hcr
  have f_t : angLt ⟨a, b⟩ ⟨a - w, b - h⟩ ⟨dx, dy⟩ = false := by
    refine angLt_false_of (by rw [hreg]) ?_
    rw [hn11, hnd]
    have hanti := cross_antisymm (⟨a - w, b - h⟩ : Vec2) ⟨dx, dy⟩
    omega
  rcases lt_trichotomy (a * (b - h) - b * (a - w)) 0 with hc11 | hc11 | hc11
  · -- the p11 spoke and the displacement both sit in region 3
    have r_o11 : region ⟨a, b⟩ ⟨a - w, b - h⟩ = 3 := by
      refine region_eq_three ?_
      rw [hno, hn11]
      exact hc11
    have r_od : region ⟨a, b⟩ ⟨dx, dy⟩ = 3 := by rw [hreg, r_o11]
    have hcod2 : a * dy - b * dx < 0 := by
      have hc := cross_neg_of_region_three r_od
      rw [hno, hnd] at hc
      exact hc
    have hstar : 0 < a * h - b * w := by nlinarith [hc11]
    have hkey : (w - a) * (a * dy - b * dx) = dx * (a * h - b * w) := by
      linear_combination a * hcr2
    have hdxneg : dx < 0 := by
      have hlhs : (w - a) * (a * dy - b * dx) < 0 :=
        mul_neg_of_pos_of_neg (by omega) hcod2
      by_contra hcon
      push_neg at hcon
      nlinarith [hkey, hlhs, mul_nonneg hcon (le_of_lt hstar)]
    have f_b : angLt ⟨a, b⟩ ⟨dx, dy⟩ ⟨a - w, b⟩ = false :=
      angLt_false_of_region_gt (by rw [r_od, r_o10]; omega)
    have f_r : angLt ⟨a, b⟩ ⟨a, b - h⟩ ⟨dx, dy⟩ = false := by
      refine angLt_false_of (by rw [r_od, r_o01]) ?_
      rw [hn01, hnd]
      show a * dy - (b - h) * dx ≤ 0
      by_contra hcon
      push_neg at hcon
      have key2 : (w - a) * (a * dy - (b - h) * dx) = w * ((h - b) * dx) := by
        linear_combination a * hcr2
      nlinarith [key2, mul_pos (show (0:ℤ) < w - a by omega) hcon,
        mul_pos (mul_pos (show (0:ℤ) < w by omega) (show (0:ℤ) < h - b by omega))
          (show (0:ℤ) < -dx by omega)]
    unfold classifyAux
    rw [f_b, f_l, f_t, f_r]
    simp
  · -- the p11 spoke is antiparallel to the reference spoke: region 2
    have hdotp : dot (normAng ⟨a, b⟩) (normAng ⟨a - w, b - h⟩) ≤ 0 := by
      rw [hno, hn11]
      show a * (a - w) + b * (b - h) ≤ 0
      nlinarith [mul_le_mul_of_nonneg_left (show a - w ≤ -a by omega) (show (0:ℤ) ≤ a by omega),
        mul_le_mul_of_nonneg_left (show b - h ≤ -b by omega) (show (0:ℤ) ≤ b by omega)]
    have r_o11 : region ⟨a, b⟩ ⟨a - w, b - h⟩ = 2 :=
      region_eq_two (by rw [hno, hn11]; exact hc11) hdotp
    have r_od : region ⟨a, b⟩ ⟨dx, dy⟩ = 2 := by rw [hreg, r_o11]
    have f_b : angLt ⟨a, b⟩ ⟨dx, dy⟩ ⟨a - w, b⟩ = false :=
      angLt_false_of_region_gt (by rw [r_od, r_o10]; omega)
    have f_r : angLt ⟨a, b⟩ ⟨a, b - h⟩ ⟨dx, dy⟩ = false :=
      angLt_false_of_region_gt (by rw [r_od, r_o01]; omega)
    unfold classifyAux
    rw [f_b, f_l, f_t, f_r]
    simp
  · -- the p11 spoke and the displacement both sit in region 1
    have r_o11 : region ⟨a, b⟩ ⟨a - w, b - h⟩ = 1 := by
      refine region_eq_one ?_
      rw [hno, hn11]
      exact hc11
    have r_od : region ⟨a, b⟩ ⟨dx, dy⟩ = 1 := by rw [hreg, r_o11]
    have hcod2 : 0 < a * dy - b * dx := by
      have hc := cross_pos_of_region_one r_od
      rw [hno, hnd] at hc
      exact hc
    have hstar : 0 < b * w - a * h := by nlinarith [hc11]
    have hkey : (w - a) * (a * dy - b * dx) = dx * (a * h - b * w) := by
      linear_combination a * hcr2
    have hdxneg : dx < 0 := by
      have hlhs : 0 < (w - a) * (a * dy - b * dx) :=
        mul_pos (by omega) hcod2
      by_contra hcon
      push_neg at hcon
      nlinarith [hkey, hlhs, mul_nonneg hcon (le_of_lt hstar)]
    have f_b : angLt ⟨a, b⟩ ⟨dx, dy⟩ ⟨a - w, b⟩ = false := by
      refine angLt_false_of (by rw [r_od, r_o10]) ?_
      rw [hnd, hn10]
      show dx * b - dy * (a - w) ≤ 0
      have key3 : dx * b - dy * (a - w) = h * dx := by
        linear_combination hcr2
      nlinarith [key3, mul_pos (show (0:ℤ) < h by omega) (show (0:ℤ) < -dx by omega)]
    have f_r : angLt ⟨a, b⟩ ⟨a, b - h⟩ ⟨dx, dy⟩ = false :=
      angLt_false_of_region_gt (by rw [r_od, r_o01]; omega)
    unfold classifyAux
    rw [f_b, f_l, f_t, f_r]
    simp

/-- Boundary-angle core, displacement angle equal to the bottom-left spoke
angle (`angle_01`): every strict sector test fails. -/
lemma classify_core_bnd01 (a b w h dx dy : Int) (ha : 1 ≤ a) (hb : 1 ≤ b)
    (haw : a ≤ w - a) (hbh : b ≤ h - b)
    (hEq : angEq ⟨a, b⟩ ⟨dx, dy⟩ ⟨a, b - h⟩ = true) :
    classifyAux ⟨a, b⟩ ⟨a - w, b⟩ ⟨a - w, b - h⟩ ⟨a, b - h⟩ ⟨dx, dy⟩ = none := by
  obtain ⟨hreg, hcr⟩ := angEq_dest hEq
  have hno : normAng ⟨a, b⟩ = ⟨a, b⟩ := normAng_of_x_ne a b (by omega)
  have hn10 : normAng ⟨a - w, b⟩ = ⟨a - w, b⟩ := normAng_of_y_ne (a - w) b (by omega)
  have hn11 : normAng ⟨a - w, b - h⟩ = ⟨a - w, b - h⟩ := normAng_of_y_ne (a - w) (b - h) (by omega)
  have hn01 : normAng ⟨a, b - h⟩ = ⟨a, b - h⟩ := normAng_of_x_ne a (b - h) (by omega)
  have r_o10 : region ⟨a, b⟩ ⟨a - w, b⟩ = 1 := by
    refine region_eq_one ?_
    rw [hno, hn10]
    show 0 < a * b - b * (a - w)
    nlinarith [mul_pos (show (0:ℤ) < b by omega) (show (0:ℤ) < w by omega)]
  have r_o01 : region ⟨a, b⟩ ⟨a, b - h⟩ = 3 := by
    refine region_eq_three ?_
    rw [hno, hn01]
    show a * (b - h) - b * a < 0
    nlinarith [mul_pos (show (0:ℤ) < a by omega) (show (0:ℤ) < h by omega)]
  by_cases hd0 : dx = 0 ∧ dy = 0
  · exfalso
    have hz : normAng ⟨dx, dy⟩ = ⟨1, 0⟩ := by rw [hd0.1, hd0.2]; exact normAng_zero
    rw [hz, hn01] at hcr
    have hval : (1 : ℤ) * (b - h) - 0 * a = 0 := hcr
    omega
  have hnd : normAng ⟨dx, dy⟩ = ⟨dx, dy⟩ := normAng_of_ne _ hd0
  rw [hnd, hn01] at hcr
  have hcr2 : dx * (b - h) - dy * a = 0 := hcr
  have r_od : region ⟨a, b⟩ ⟨dx, dy⟩ = 3 := by rw [hreg, r_o01]
  have hcod2 : a * dy - b * dx < 0 := by
    have hc := cross_neg_of_region_three r_od
    rw [hno, hnd] at hc
    exact hc
  have hhdx : 0 < h * dx := by nlinarith [hcr2, hcod2]
  have hdxpos : 0 < dx := by
    by_contra hcon
    push_neg at hcon
    nlinarith [hhdx, mul_nonneg (show (0:ℤ) ≤ h by omega) (show (0:ℤ) ≤ -dx by omega)]
  have f_b : angLt ⟨a, b⟩ ⟨dx, dy⟩ ⟨a - w, b⟩ = false :=
    angLt_false_of_region_gt (by rw [r_od, r_o10]; omega)
  have f_l : angLt ⟨a, b⟩ ⟨dx, dy⟩ ⟨a - w, b - h⟩ = false := by
    rcases lt_trichotomy (a * (b - h) - b * (a - w)) 0 with hc11 | hc11 | hc11
    · have r_o11 : region ⟨a, b⟩ ⟨a - w, b - h⟩ = 3 := by
        refine region_eq_three ?_
        rw [hno, hn11]
        exact hc11
      refine angLt_false_of (by rw [r_od, r_o11]) ?_
      rw [hnd, hn11]
      show dx * (b - h) - dy * (a - w) ≤ 0
      by_contra hcon
      push_neg at hcon
      have key : a * (dx * (b - h) - dy * (a - w)) = -((h - b) * (w * dx)) := by
        linear_combination (a - w) * hcr2
      nlinarith [key, mul_pos (show (0:ℤ) < a by omega) hcon,
        mul_pos (mul_pos (show (0:ℤ) < h - b by omega) (show (0:ℤ) < w by omega)) hdxpos]
    · have hdotp : dot (normAng ⟨a, b⟩) (normAng ⟨a - w, b - h⟩) ≤ 0 := by
        rw [hno, hn11]
        show a * (a - w) + b * (b - h) ≤ 0
        nlinarith [mul_le_mul_of_nonneg_left (show a - w ≤ -a by omega) (show (0:ℤ) ≤ a by omega),
          mul_le_mul_of_nonneg_left (show b - h ≤ -b by omega) (show (0:ℤ) ≤ b by omega)]
      have r_o11 : region ⟨a, b⟩ ⟨a - w, b - h⟩ = 2 :=
        region_eq_two (by rw [hno, hn11]; exact hc11) hdotp
      exact angLt_false_of_region_gt (by rw [r_od, r_o11]; omega)
    · have r_o11 : region ⟨a, b⟩ ⟨a - w, b - h⟩ = 1 := by
        refine region_eq_one ?_
        rw [hno, hn11]
        exact hc11
      exact angLt_false_of_region_gt (by rw [r_od, r_o11]; omega)
  have f_t : angLt ⟨a, b⟩ ⟨dx, dy⟩ ⟨a, b - h⟩ = false := by
    refine angLt_false_of (by rw [hreg]) ?_
    rw [hnd, hn01]
    exact le_of_eq hcr
  have f_r : angLt ⟨a, b⟩ ⟨a, b - h⟩ ⟨dx, dy⟩ = false := by
    refine angLt_false_of (by rw [hreg]) ?_
    rw [hn01, hnd]
    have hanti := cross_antisymm (⟨a, b - h⟩ : Vec2) ⟨dx, dy⟩
    omega
  unfold classifyAux
  rw [f_b, f_l, f_t, f_r]
  simp

end Collision

namespace Collision

/-- C2 counterexample: an overlapping pair whose center-to-center angle
equals the reference spoke angle `angle_00`; the claim predicts that the
first sector test in the bottom, left, top, right order that holds wins,
returning a side, but no strict sector test holds and the classifier
returns no side at all. -/
theorem c2_counterexample :
    collideRect ⟨-2, -2, 4, 4⟩ ⟨0, 0, 4, 4⟩ = true ∧
    angEq (originSpoke ⟨0, 0, 4, 4⟩) (dispVec ⟨-2, -2, 4, 4⟩ ⟨0, 0, 4, 4⟩)
      (originSpoke ⟨0, 0, 4, 4⟩) = true ∧
    checkCollisionDirection ⟨-2, -2, 4, 4⟩ ⟨0, 0, 4, 4⟩ = none := by
  decide

/-- C2 (amended): for an overlapping pair with nondegenerate static
rectangle whose displacement angle equals one of the four spoke angles, all
four strict sector tests fail and the classifier returns no side; the tie
is not resolved to any sector. -/
theorem c2_amended (m s : Rect) (hw : 2 ≤ s.w) (hh : 2 ≤ s.h)
    (hc : collideRect m s = true)
    (hbnd : angEq (originSpoke s) (dispVec m s) (originSpoke s) = true ∨
      angEq (originSpoke s) (dispVec m s) (spokeTR s) = true ∨
      angEq (originSpoke s) (dispVec m s) (spokeBR s) = true ∨
      angEq (originSpoke s) (dispVec m s) (spokeBL s) = true) :
    checkCollisionDirection m s = none := by
  have ho : originSpoke s = ⟨s.w / 2, s.h / 2⟩ := by
    simp [originSpoke, Rect.centerx, Rect.centery, Rect.left, Rect.top, add_sub_cancel_left]
  have h10 : spokeTR s = ⟨s.w / 2 - s.w, s.h / 2⟩ := by
    simp [spokeTR, Rect.centerx, Rect.centery, Rect.right, Rect.top, add_sub_cancel_left,
      add_sub_add_left_eq_sub]
  have h11 : spokeBR s = ⟨s.w / 2 - s.w, s.h / 2 - s.h⟩ := by
    simp [spokeBR, Rect.centerx, Rect.centery, Rect.right, Rect.bottom,
      add_sub_add_left_eq_sub]
  have h01 : spokeBL s = ⟨s.w / 2, s.h / 2 - s.h⟩ := by
    simp [spokeBL, Rect.centerx, Rect.centery, Rect.left, Rect.bottom, add_sub_cancel_left,
      add_sub_add_left_eq_sub]
  have hdv : dispVec m s = ⟨s.centerx - m.centerx, s.centery - m.centery⟩ := rfl
  rw [ho, h10, h11, h01, hdv] at hbnd
  rw [checkCollisionDirection_eq_aux m s hc]
  rcases hbnd with hb0 | hb0 | hb0 | hb0
  · exact classify_core_bnd00 (s.w / 2) (s.h / 2) s.w s.h _ _ (by omega) (by omega)
      (by omega) (by omega) hb0
  · exact classify_core_bnd10 (s.w / 2) (s.h / 2) s.w s.h _ _ (by omega) (by omega)
      (by omega) (by omega) hb0
  · exact classify_core_bnd11 (s.w / 2) (s.h / 2) s.w s.h _ _ (by omega) (by omega)
      (by omega) (by omega) hb0
  · exact classify_core_bnd01 (s.w / 2) (s.h / 2) s.w s.h _ _ (by omega) (by omega)
      (by omega) (by omega) hb0

/-- C2 witness: a concrete overlapping pair whose displacement angle equals
the `angle_10` spoke angle yields no side. -/
theorem c2_witness :
    checkCollisionDirection ⟨2, -2, 4, 4⟩ ⟨0, 0, 4, 4⟩ = none :=
  c2_amended ⟨2, -2, 4, 4⟩ ⟨0, 0, 4, 4⟩ (by decide) (by decide) (by decide)
    (Or.inr (Or.inl (by decide)))

end Collision

namespace Collision

lemma resolveBasic_single (p : Player) (wall : Rect) :
    resolveBasicCollision p [wall] =
      if collideRect p.rect wall then basicStep p wall else p := by
  unfold resolveBasicCollision
  by_cases hcol : collideRect p.rect wall
  · simp [hcol]
  · simp [hcol]

/-- One basic-resolution step either leaves the player untouched (no
classified side) or moves it flush so that it no longer overlaps that
wall. -/
lemma basicStep_cases (p : Player) (wall : Rect) :
    basicStep p wall = p ∨ collideRect (basicStep p wall).rect wall = false := by
  unfold basicStep
  cases hdir : checkCollisionDirection p.rect wall with
  | none => exact Or.inl rfl
  | some dir =>
    refine Or.inr ?_
    cases dir <;>
      simp [collideRect, Rect.setBottom, Rect.setLeft, Rect.setTop, Rect.setRight,
        Rect.top, Rect.bottom, Rect.left, Rect.right]

/-- C3 counterexample: between two stacked walls, the first pass snaps the
mover onto the lower wall, which pushes it into the upper wall; the second
pass then moves it again, so applying the Basic Resolver twice differs from
applying it once. -/
theorem c3_counterexample :
    resolveBasicCollision
        (resolveBasicCollision ⟨⟨0, 12, 8, 10⟩, 0, 5, 0, 0, false, 1, 97⟩
          [⟨0, 20, 20, 10⟩, ⟨0, 2, 20, 9⟩])
        [⟨0, 20, 20, 10⟩, ⟨0, 2, 20, 9⟩] ≠
      resolveBasicCollision ⟨⟨0, 12, 8, 10⟩, 0, 5, 0, 0, false, 1, 97⟩
        [⟨0, 20, 20, 10⟩, ⟨0, 2, 20, 9⟩] := by
  decide

/-- C3 (amended): the Basic Resolver is idempotent for a single obstacle —
after one pass the mover either no longer overlaps the obstacle or is left
untouched by classification, so a second pass changes nothing — and
resolving a mover that overlaps no obstacle of the group is a no-op.  With
two or more obstacles a correction against one can push the mover into
another, so idempotence fails (see the counterexample). -/
theorem c3_amended :
    (∀ (p : Player) (wall : Rect),
      resolveBasicCollision (resolveBasicCollision p [wall]) [wall] =
        resolveBasicCollision p [wall]) ∧
    (∀ (p : Player) (group : List Rect),
      (∀ wall ∈ group, collideRect p.rect wall = false) →
      resolveBasicCollision p group = p) := by
  constructor
  · intro p wall
    by_cases hcol : collideRect p.rect wall
    · rw [resolveBasic_single p wall, if_pos hcol]
      rcases basicStep_cases p wall with hid | hno
      · rw [hid, resolveBasic_single, if_pos hcol, hid]
      · rw [resolveBasic_single]
        simp [hno]
    · rw [resolveBasic_single p wall, if_neg hcol, resolveBasic_single, if_neg hcol]
  · intro p group hg
    unfold resolveBasicCollision
    have hfil : group.filter (fun wall => collideRect p.rect wall) = [] := by
      rw [List.filter_eq_nil_iff]
      intro wall hw
      simp [hg wall hw]
    rw [hfil]
    rfl

/-- C3 witness: a concrete single-wall resolution applied twice, and a
concrete non-overlapping resolution, both behaving as the amended claim
states. -/
theorem c3_witness :
    resolveBasicCollision
        (resolveBasicCollision ⟨⟨0, 12, 8, 10⟩, 0, 5, 0, 0, false, 1, 97⟩ [⟨0, 20, 20, 10⟩])
        [⟨0, 20, 20, 10⟩] =
      resolveBasicCollision ⟨⟨0, 12, 8, 10⟩, 0, 5, 0, 0, false, 1, 97⟩ [⟨0, 20, 20, 10⟩] ∧
    resolveBasicCollision ⟨⟨0, 12, 8, 10⟩, 0, 5, 0, 0, false, 1, 97⟩ [⟨50, 50, 4, 4⟩] =
      ⟨⟨0, 12, 8, 10⟩, 0, 5, 0, 0, false, 1, 97⟩ := by
  constructor
  · exact c3_amended.1 ⟨⟨0, 12, 8, 10⟩, 0, 5, 0, 0, false, 1, 97⟩ ⟨0, 20, 20, 10⟩
  · exact c3_amended.2 ⟨⟨0, 12, 8, 10⟩, 0, 5, 0, 0, false, 1, 97⟩ [⟨50, 50, 4, 4⟩]
      (by decide)

end Collision

namespace Collision

lemma collide_of_direction {m s : Rect} {d : Dir}
    (h : checkCollisionDirection m s = some d) : collideRect m s = true := by
  by_contra hc
  rw [Bool.not_eq_true] at hc
  unfold checkCollisionDirection at h
  rw [hc] at h
  simp at h

/-- C4: against a directional platform, only the `bottom` classification
within the 30-unit tolerance band snaps the player's bottom to the
platform's top, marks it on ground, zeroes a downward (positive) vertical
velocity and preserves an upward (negative) one; a gap of at least 30 units
leaves the player untouched, and any other classification has no effect. -/
theorem c4_theorem (p : Player) (plat : Rect) :
    (checkCollisionDirection p.rect plat = some Dir.bottom →
      ((30 ≤ (p.rect.bottom - plat.top).natAbs → resolveDPlatformOne p [plat] = p) ∧
       ((p.rect.bottom - plat.top).natAbs < 30 →
         (resolveDPlatformOne p [plat]).rect = p.rect.setBottom plat.top ∧
         (resolveDPlatformOne p [plat]).isOnGround = true ∧
         (resolveDPlatformOne p [plat]).vely = (if 0 < p.vely then 0 else p.vely) ∧
         (resolveDPlatformOne p [plat]).velx = p.velx))) ∧
    (checkCollisionDirection p.rect plat ≠ some Dir.bottom →
      resolveDPlatformOne p [plat] = p) := by
  constructor
  · intro hdir
    have hcol : collideRect p.rect plat = true := collide_of_direction hdir
    have hfil : [plat].filter (fun platform => collideRect p.rect platform) = [plat] := by
      simp [hcol]
    constructor
    · intro htol
      unfold resolveDPlatformOne
      rw [hfil]
      simp only [List.foldl_cons, List.foldl_nil, hdir]
      rw [if_neg (by omega)]
    · intro htol
      unfold resolveDPlatformOne
      rw [hfil]
      simp only [List.foldl_cons, List.foldl_nil, hdir]
      rw [if_pos htol]
      by_cases hv : p.vely > 0
      · simp [hv]
      · simp [hv]
  · intro hdir
    unfold resolveDPlatformOne
    by_cases hcol : collideRect p.rect plat
    · have hfil : [plat].filter (fun platform => collideRect p.rect platform) = [plat] := by
        simp [hcol]
      rw [hfil]
      simp only [List.foldl_cons, List.foldl_nil]
    · have hfil : [plat].filter (fun platform => collideRect p.rect platform) = [] := by
        simp [hcol]
      rw [hfil]
      rfl

/-- C4 witness: a concrete player 2 units above a platform's top, with
downward velocity, classified `bottom`: snapped, grounded, downward
velocity zeroed, horizontal velocity preserved. -/
theorem c4_witness :
    (resolveDPlatformOne ⟨⟨0, 12, 8, 10⟩, 3, 5, 0, 0, false, 1, 97⟩ [⟨0, 20, 20, 10⟩]).rect =
      Rect.setBottom ⟨0, 12, 8, 10⟩ (Rect.top ⟨0, 20, 20, 10⟩) ∧
    (resolveDPlatformOne ⟨⟨0, 12, 8, 10⟩, 3, 5, 0, 0, false, 1, 97⟩
      [⟨0, 20, 20, 10⟩]).isOnGround = true ∧
    (resolveDPlatformOne ⟨⟨0, 12, 8, 10⟩, 3, 5, 0, 0, false, 1, 97⟩ [⟨0, 20, 20, 10⟩]).vely =
      (if (0 : Int) < 5 then 0 else 5) ∧
    (resolveDPlatformOne ⟨⟨0, 12, 8, 10⟩, 3, 5, 0, 0, false, 1, 97⟩ [⟨0, 20, 20, 10⟩]).velx =
      3 :=
  ((c4_theorem ⟨⟨0, 12, 8, 10⟩, 3, 5, 0, 0, false, 1, 97⟩ ⟨0, 20, 20, 10⟩).1
    (by decide)).2 (by decide)

end Collision

namespace Collision

/-- C5: an "on" switch is turned off by `resolveSwitchCollisions` exactly
when some player overlaps it with nonzero velocity on at least one axis,
and the resolver modifies no player state. -/
theorem c5_theorem (sc : Scene) :
    (resolveSwitchCollisions sc).players = sc.players ∧
    ∀ (i : Nat) (sw : Switch), sc.switches[i]? = some sw → sw.isOn = true →
      ∃ sw2, (resolveSwitchCollisions sc).switches[i]? = some sw2 ∧
        (sw2.isOn = false ↔ ∃ p ∈ sc.players,
          collideRect p.rect sw.rect = true ∧ (p.velx ≠ 0 ∨ p.vely ≠ 0)) := by
  refine ⟨rfl, ?_⟩
  intro i sw hget hon
  have hmap : (resolveSwitchCollisions sc).switches[i]? =
      Option.map (fun s => if s.isOn && hitByMovingPlayer sc.players s then s.turnOff else s)
        sc.switches[i]? := by
    unfold resolveSwitchCollisions
    exact List.getElem?_map ..
  rw [hget, Option.map_some'] at hmap
  refine ⟨_, hmap, ?_⟩
  by_cases hhit : hitByMovingPlayer sc.players sw = true
  · have hexp : ∃ p ∈ sc.players,
        collideRect p.rect sw.rect = true ∧ (p.velx ≠ 0 ∨ p.vely ≠ 0) := by
      unfold hitByMovingPlayer at hhit
      rw [List.any_eq_true] at hhit
      obtain ⟨p, hp, hcond⟩ := hhit
      simp only [Bool.and_eq_true, Bool.or_eq_true, decide_eq_true_eq] at hcond
      exact ⟨p, hp, hcond.1, hcond.2⟩
    simp [hon, hhit, Switch.turnOff, hexp]
  · have hhitF : hitByMovingPlayer sc.players sw = false := by
      rw [Bool.not_eq_true] at hhit
      exact hhit
    have hnex : ¬∃ p ∈ sc.players,
        collideRect p.rect sw.rect = true ∧ (p.velx ≠ 0 ∨ p.vely ≠ 0) := by
      rintro ⟨p, hp, h1, h2⟩
      have hany : hitByMovingPlayer sc.players sw = true := by
        unfold hitByMovingPlayer
        rw [List.any_eq_true]
        refine ⟨p, hp, ?_⟩
        simp [h1, h2]
      rw [hany] at hhitF
      cases hhitF
    simp [hon, hhitF, hnex]

/-- C5 witness: a moving player overlapping a concrete "on" switch turns it
off. -/
theorem c5_witness :
    ∃ sw2, (resolveSwitchCollisions
        ⟨[⟨⟨0, 0, 4, 4⟩, 1, 0, 0, 0, false, 1, 97⟩], [], [], [], [],
          [⟨⟨2, 2, 4, 4⟩, true⟩], [], [], [], ⟨0, 0, 100, 100⟩⟩).switches[0]? = some sw2 ∧
      (sw2.isOn = false ↔ ∃ p ∈ [(⟨⟨0, 0, 4, 4⟩, 1, 0, 0, 0, false, 1, 97⟩ : Player)],
        collideRect p.rect (⟨2, 2, 4, 4⟩ : Rect) = true ∧ (p.velx ≠ 0 ∨ p.vely ≠ 0)) :=
  (c5_theorem ⟨[⟨⟨0, 0, 4, 4⟩, 1, 0, 0, 0, false, 1, 97⟩], [], [], [], [],
      [⟨⟨2, 2, 4, 4⟩, true⟩], [], [], [], ⟨0, 0, 100, 100⟩⟩).2 0 ⟨⟨2, 2, 4, 4⟩, true⟩
    (by decide) (by decide)

end Collision

namespace Collision

/-- C6 counterexample: the scene rectangle sits at `x = 100`, so the code's
boundary `Rect(-1000, -1000, w + 2000, h + 2000)` is not the scene
rectangle expanded by the margin; a player fully inside the spec's expanded
scene rectangle still receives a death notification. -/
theorem c6_counterexample :
    containsRect (specExpandedRect ⟨100, 0, 10, 10⟩) ⟨1050, 0, 5, 5⟩ = true ∧
    Msg.death 1 ∈ (resolveBoundaryCollision
      ⟨⟨[⟨⟨1050, 0, 5, 5⟩, 0, 0, 0, 0, false, 1, 97⟩], [], [], [], [], [], [], [], [],
        ⟨100, 0, 10, 10⟩⟩, [], "idle"⟩).messages := by
  decide

/-- C6 (amended): `resolveBoundaryCollision` builds the fixed rectangle
from `(-1000, -1000)` of size `(scene width + 2000, scene height + 2000)` —
which coincides with the scene rectangle expanded by a 1000-unit margin
only when the scene rectangle is anchored at the origin — and emits a death
notification carrying a player's identity precisely for players whose
rectangle is not contained in that rectangle (or when the notification was
already pending). -/
theorem c6_amended (sc : Scene) (msgs : List Msg) (audio : String) (n : Nat) :
    (Msg.death n ∈ (resolveBoundaryCollision ⟨sc, msgs, audio⟩).messages ↔
      Msg.death n ∈ msgs ∨ ∃ p ∈ sc.players, p.num = n ∧
        containsRect (boundaryRect sc) p.rect = false) ∧
    (sc.rect.x = 0 → sc.rect.y = 0 → boundaryRect sc = specExpandedRect sc.rect) := by
  constructor
  · unfold resolveBoundaryCollision
    simp only [List.mem_append, List.mem_map, List.mem_filter, Bool.not_eq_true']
    constructor
    · rintro (hm | ⟨p, ⟨hp, hb⟩, heq⟩)
      · exact Or.inl hm
      · refine Or.inr ⟨p, hp, ?_, hb⟩
        injection heq
    · rintro (hm | ⟨p, hp, hnum, hb⟩)
      · exact Or.inl hm
      · exact Or.inr ⟨p, ⟨hp, hb⟩, by rw [hnum]⟩
  · intro hx hy
    unfold boundaryRect specExpandedRect
    rw [hx, hy]
    norm_num

/-- C6 witness: a player far outside the boundary of an origin-anchored
scene triggers its death notification, and the code's boundary equals the
spec's expanded rectangle there. -/
theorem c6_witness :
    (Msg.death 1 ∈ (resolveBoundaryCollision
        ⟨⟨[⟨⟨5000, 0, 5, 5⟩, 0, 0, 0, 0, false, 1, 97⟩], [], [], [], [], [], [], [], [],
          ⟨0, 0, 10, 10⟩⟩, [], "idle"⟩).messages ↔
      Msg.death 1 ∈ ([] : List Msg) ∨
        ∃ p ∈ [(⟨⟨5000, 0, 5, 5⟩, 0, 0, 0, 0, false, 1, 97⟩ : Player)], p.num = 1 ∧
          containsRect (boundaryRect ⟨[⟨⟨5000, 0, 5, 5⟩, 0, 0, 0, 0, false, 1, 97⟩],
            [], [], [], [], [], [], [], [], ⟨0, 0, 10, 10⟩⟩) p.rect = false) ∧
    boundaryRect ⟨[⟨⟨5000, 0, 5, 5⟩, 0, 0, 0, 0, false, 1, 97⟩],
        [], [], [], [], [], [], [], [], ⟨0, 0, 10, 10⟩⟩ =
      specExpandedRect ⟨0, 0, 10, 10⟩ :=
  ⟨(c6_amended ⟨[⟨⟨5000, 0, 5, 5⟩, 0, 0, 0, 0, false, 1, 97⟩],
      [], [], [], [], [], [], [], [], ⟨0, 0, 10, 10⟩⟩ [] "idle" 1).1,
    (c6_amended ⟨[⟨⟨5000, 0, 5, 5⟩, 0, 0, 0, 0, false, 1, 97⟩],
      [], [], [], [], [], [], [], [], ⟨0, 0, 10, 10⟩⟩ [] "idle" 1).2 rfl rfl⟩

end Collision

namespace Collision

/-- C7: with exactly two overlapping players, the cooperative explosion
gives both an upward (negative) vertical impulse of magnitude 30 and
horizontal impulses of the same magnitude in opposite directions, the
player at the strictly larger x coordinate receiving the positive one. -/
theorem c7_theorem (st : EngineState) (p1 p2 : Player)
    (hpl : st.scene.players = [p1, p2])
    (hcol : collideRect p1.rect p2.rect = true) :
    ∃ q1 q2, (resolvePlayerCollisions 30 st).scene.players = [q1, q2] ∧
      q1.vely = p1.vely - 30 ∧ q2.vely = p2.vely - 30 ∧
      (p2.rect.x > p1.rect.x → q1.velx = p1.velx - 30 ∧ q2.velx = p2.velx + 30) ∧
      (p1.rect.x > p2.rect.x → q1.velx = p1.velx + 30 ∧ q2.velx = p2.velx - 30) := by
  obtain ⟨⟨players, w1, w2, w3, w4, w5, w6, w7, w8, w9⟩, msgs, audio⟩ := st
  have hpl2 : players = [p1, p2] := hpl
  subst hpl2
  by_cases hx : p2.rect.x > p1.rect.x
  · refine ⟨addVelocityX (addVelocityY p1 (-30)) (-30),
      addVelocityX (addVelocityY p2 (-30)) 30, ?_, ?_, ?_, ?_, ?_⟩
    · simp [resolvePlayerCollisions, hcol, addVelocityY, addVelocityX, hx]
    · simp [addVelocityX, addVelocityY]
      omega
    · simp [addVelocityX, addVelocityY]
      omega
    · intro h2
      constructor
      · simp [addVelocityX, addVelocityY]
        omega
      · simp [addVelocityX, addVelocityY]
    · intro h2
      omega
  · refine ⟨addVelocityX (addVelocityY p1 (-30)) 30,
      addVelocityX (addVelocityY p2 (-30)) (-30), ?_, ?_, ?_, ?_, ?_⟩
    · simp [resolvePlayerCollisions, hcol, addVelocityY, addVelocityX, hx]
    · simp [addVelocityX, addVelocityY]
      omega
    · simp [addVelocityX, addVelocityY]
      omega
    · intro h2
      omega
    · intro h2
      constructor
      · simp [addVelocityX, addVelocityY]
      · simp [addVelocityX, addVelocityY]
        omega

/-- C7 witness: a concrete overlapping pair with the second player to the
right receives the symmetric explosion impulses. -/
theorem c7_witness :
    ∃ q1 q2, (resolvePlayerCollisions 30
        ⟨⟨[⟨⟨0, 0, 4, 4⟩, 1, 2, 0, 0, false, 1, 97⟩, ⟨⟨2, 0, 4, 4⟩, 3, 4, 0, 0, false, 2, 98⟩],
          [], [], [], [], [], [], [], [], ⟨0, 0, 100, 100⟩⟩, [], "idle"⟩).scene.players =
        [q1, q2] ∧
      q1.vely = (2 : Int) - 30 ∧ q2.vely = (4 : Int) - 30 ∧
      ((2 : Int) > 0 → q1.velx = (1 : Int) - 30 ∧ q2.velx = (3 : Int) + 30) ∧
      ((0 : Int) > 2 → q1.velx = (1 : Int) + 30 ∧ q2.velx = (3 : Int) - 30) :=
  c7_theorem ⟨⟨[⟨⟨0, 0, 4, 4⟩, 1, 2, 0, 0, false, 1, 97⟩, ⟨⟨2, 0, 4, 4⟩, 3, 4, 0, 0, false, 2, 98⟩],
      [], [], [], [], [], [], [], [], ⟨0, 0, 100, 100⟩⟩, [], "idle"⟩
    ⟨⟨0, 0, 4, 4⟩, 1, 2, 0, 0, false, 1, 97⟩ ⟨⟨2, 0, 4, 4⟩, 3, 4, 0, 0, false, 2, 98⟩
    rfl (by decide)

end Collision

namespace Collision

/-- C8 counterexample: with exactly two players whose rectangles do not
overlap, pressing a coop-jump key changes no velocity or position — but it
is not a complete no-op: the explosion sound effect is still triggered. -/
theorem c8_counterexample :
    collideRect (⟨0, 0, 5, 5⟩ : Rect) ⟨100, 0, 5, 5⟩ = false ∧
    eventHandler 97
        ⟨⟨[⟨⟨0, 0, 5, 5⟩, 0, 0, 0, 0, false, 1, 97⟩, ⟨⟨100, 0, 5, 5⟩, 0, 0, 0, 0, false, 2, 98⟩],
          [], [], [], [], [], [], [], [], ⟨0, 0, 200, 50⟩⟩, [], "idle"⟩ ≠
      ⟨⟨[⟨⟨0, 0, 5, 5⟩, 0, 0, 0, 0, false, 1, 97⟩, ⟨⟨100, 0, 5, 5⟩, 0, 0, 0, 0, false, 2, 98⟩],
        [], [], [], [], [], [], [], [], ⟨0, 0, 200, 50⟩⟩, [], "idle"⟩ ∧
    (eventHandler 97
        ⟨⟨[⟨⟨0, 0, 5, 5⟩, 0, 0, 0, 0, false, 1, 97⟩, ⟨⟨100, 0, 5, 5⟩, 0, 0, 0, 0, false, 2, 98⟩],
          [], [], [], [], [], [], [], [], ⟨0, 0, 200, 50⟩⟩, [], "idle"⟩).audioState =
      "explosion" ∧
    (eventHandler 97
        ⟨⟨[⟨⟨0, 0, 5, 5⟩, 0, 0, 0, 0, false, 1, 97⟩, ⟨⟨100, 0, 5, 5⟩, 0, 0, 0, 0, false, 2, 98⟩],
          [], [], [], [], [], [], [], [], ⟨0, 0, 200, 50⟩⟩, [], "idle"⟩).scene.players =
      [⟨⟨0, 0, 5, 5⟩, 0, 0, 0, 0, false, 1, 97⟩, ⟨⟨100, 0, 5, 5⟩, 0, 0, 0, 0, false, 2, 98⟩] := by
  decide

/-- C8 (amended): a coop-jump key press with anything other than exactly
two players is swallowed as a complete no-op; with exactly two
non-overlapping players whose binding matches, positions, velocities and
messages are untouched and no error is raised, but the explosion sound
state is still set. -/
theorem c8_amended (key : Nat) (st : EngineState) :
    (st.scene.players.length ≠ 2 → key ≠ K_RETURN → eventHandler key st = st) ∧
    (∀ p1 p2, st.scene.players = [p1, p2] → key ≠ K_RETURN →
      (key = p1.coopJump ∨ key = p2.coopJump) →
      collideRect p1.rect p2.rect = false →
      eventHandler key st = { st with audioState := "explosion" }) := by
  obtain ⟨⟨players, w1, w2, w3, w4, w5, w6, w7, w8, w9⟩, msgs, audio⟩ := st
  constructor
  · intro hlen hk
    unfold eventHandler coopJumpPart
    rw [if_neg hk]
    rcases players with _ | ⟨a, _ | ⟨b, _ | ⟨c, t⟩⟩⟩
    · rfl
    · rfl
    · exact absurd rfl hlen
    · rfl
  · intro p1 p2 hpl hk hmatch hncol
    have hpl2 : players = [p1, p2] := hpl
    subst hpl2
    have hrp : resolvePlayerCollisions 30
        ⟨⟨[p1, p2], w1, w2, w3, w4, w5, w6, w7, w8, w9⟩, msgs, audio⟩ =
        ⟨⟨[p1, p2], w1, w2, w3, w4, w5, w6, w7, w8, w9⟩, msgs, audio⟩ := by
      unfold resolvePlayerCollisions
      simp [hncol]
    unfold eventHandler coopJumpPart
    rw [if_neg hk]
    show (if key = p1.coopJump ∨ key = p2.coopJump then _ else _) = _
    rw [if_pos hmatch, hrp]

end Collision

namespace Collision

/-- C8 witness: a concrete empty scene ignores the key entirely, and a
concrete non-overlapping pair keeps its state except for the sound flag. -/
theorem c8_witness :
    eventHandler 5 ⟨⟨[], [], [], [], [], [], [], [], [], ⟨0, 0, 10, 10⟩⟩, [], "idle"⟩ =
      ⟨⟨[], [], [], [], [], [], [], [], [], ⟨0, 0, 10, 10⟩⟩, [], "idle"⟩ ∧
    eventHandler 97
        ⟨⟨[⟨⟨0, 0, 5, 5⟩, 0, 0, 0, 0, false, 1, 97⟩, ⟨⟨100, 0, 5, 5⟩, 0, 0, 0, 0, false, 2, 98⟩],
          [], [], [], [], [], [], [], [], ⟨0, 0, 200, 50⟩⟩, [], "idle"⟩ =
      ⟨⟨[⟨⟨0, 0, 5, 5⟩, 0, 0, 0, 0, false, 1, 97⟩, ⟨⟨100, 0, 5, 5⟩, 0, 0, 0, 0, false, 2, 98⟩],
        [], [], [], [], [], [], [], [], ⟨0, 0, 200, 50⟩⟩, [], "explosion"⟩ :=
  ⟨(c8_amended 5 ⟨⟨[], [], [], [], [], [], [], [], [], ⟨0, 0, 10, 10⟩⟩, [], "idle"⟩).1
      (by decide) (by decide),
    (c8_amended 97
        ⟨⟨[⟨⟨0, 0, 5, 5⟩, 0, 0, 0, 0, false, 1, 97⟩, ⟨⟨100, 0, 5, 5⟩, 0, 0, 0, 0, false, 2, 98⟩],
          [], [], [], [], [], [], [], [], ⟨0, 0, 200, 50⟩⟩, [], "idle"⟩).2
      ⟨⟨0, 0, 5, 5⟩, 0, 0, 0, 0, false, 1, 97⟩ ⟨⟨100, 0, 5, 5⟩, 0, 0, 0, 0, false, 2, 98⟩
      rfl (by decide) (Or.inl rfl) (by decide)⟩

end Collision

namespace Collision

lemma foldl_size_preserved {β : Type} (f : Player → β → Player) (l : List β)
    (hf : ∀ q x, (f q x).rect.w = q.rect.w ∧ (f q x).rect.h = q.rect.h) :
    ∀ p : Player, ((l.foldl f p).rect.w = p.rect.w ∧ (l.foldl f p).rect.h = p.rect.h) := by
  induction l with
  | nil => exact fun p => ⟨rfl, rfl⟩
  | cons x xs ih =>
    intro p
    simp only [List.foldl_cons]
    obtain ⟨h1, h2⟩ := ih (f p x)
    obtain ⟨h3, h4⟩ := hf p x
    exact ⟨h1.trans h3, h2.trans h4⟩

lemma basicStep_size (p : Player) (wall : Rect) :
    (basicStep p wall).rect.w = p.rect.w ∧ (basicStep p wall).rect.h = p.rect.h := by
  unfold basicStep
  cases checkCollisionDirection p.rect wall with
  | none => exact ⟨rfl, rfl⟩
  | some d =>
    cases d <;> simp [Rect.setBottom, Rect.setLeft, Rect.setTop, Rect.setRight]

lemma resolveBasicCollision_size (p : Player) (group : List Rect) :
    (resolveBasicCollision p group).rect.w = p.rect.w ∧
    (resolveBasicCollision p group).rect.h = p.rect.h := by
  unfold resolveBasicCollision
  exact foldl_size_preserved _ _ basicStep_size p

lemma resolveDPlatformOne_size (p : Player) (dPlatforms : List Rect) :
    (resolveDPlatformOne p dPlatforms).rect.w = p.rect.w ∧
    (resolveDPlatformOne p dPlatforms).rect.h = p.rect.h := by
  unfold resolveDPlatformOne
  refine foldl_size_preserved _ _ ?_ p
  intro q x
  cases hdir : checkCollisionDirection q.rect x with
  | none => simp
  | some d =>
    cases d
    · by_cases ht : (q.rect.bottom - x.top).natAbs < 30
      · by_cases hv : q.vely > 0 <;> simp [ht, hv, Rect.setBottom]
      · simp [ht]
    · simp
    · simp
    · simp

lemma resolveMPlatformOne_size (p : Player) (mPlatforms : List MPlat) :
    (resolveMPlatformOne p mPlatforms).rect.w = p.rect.w ∧
    (resolveMPlatformOne p mPlatforms).rect.h = p.rect.h := by
  unfold resolveMPlatformOne
  obtain ⟨h1, h2⟩ := foldl_size_preserved
    (fun (p : Player) (platform : MPlat) =>
      addDisplacementY (addDisplacementX p platform.dx) platform.dy)
    (mPlatforms.filter (fun platform => collideRect p.rect platform.rect))
    (fun q x => by simp [addDisplacementX, addDisplacementY])
    (resolveBasicCollision p (mPlatforms.map (fun platform => platform.rect)))
  obtain ⟨h3, h4⟩ := resolveBasicCollision_size p (mPlatforms.map (fun platform => platform.rect))
  exact ⟨h1.trans h3, h2.trans h4⟩

lemma sizes_map (f : Player → Player) (ps : List Player)
    (hf : ∀ p, (f p).rect.w = p.rect.w ∧ (f p).rect.h = p.rect.h) :
    sizes (ps.map f) = sizes ps := by
  induction ps with
  | nil => rfl
  | cons x xs ih =>
    simp only [sizes, List.map_cons] at ih ⊢
    rw [ih, (hf x).1, (hf x).2]

end Collision

namespace Collision

lemma pres_wall (st : EngineState) :
    sizes (resolveWallCollisions st).scene.players = sizes st.scene.players ∧
    obstacleRects (resolveWallCollisions st).scene = obstacleRects st.scene := by
  unfold resolveWallCollisions
  exact ⟨sizes_map _ _ (fun p => resolveBasicCollision_size p _), rfl⟩

lemma pres_splat (st : EngineState) :
    sizes (resolveSPlatformCollisions st).scene.players = sizes st.scene.players ∧
    obstacleRects (resolveSPlatformCollisions st).scene = obstacleRects st.scene := by
  unfold resolveSPlatformCollisions
  exact ⟨sizes_map _ _ (fun p => resolveBasicCollision_size p _), rfl⟩

lemma pres_dplat (st : EngineState) :
    sizes (resolveDPlatformCollisions st).scene.players = sizes st.scene.players ∧
    obstacleRects (resolveDPlatformCollisions st).scene = obstacleRects st.scene := by
  unfold resolveDPlatformCollisions
  exact ⟨sizes_map _ _ (fun p => resolveDPlatformOne_size p _), rfl⟩

lemma pres_mplat (st : EngineState) :
    sizes (resolveMPlatformCollisions st).scene.players = sizes st.scene.players ∧
    obstacleRects (resolveMPlatformCollisions st).scene = obstacleRects st.scene := by
  unfold resolveMPlatformCollisions
  exact ⟨sizes_map _ _ (fun p => resolveMPlatformOne_size p _), rfl⟩

lemma switch_rect_map (players : List Player) (l : List Switch) :
    (l.map (fun s => if s.isOn && hitByMovingPlayer players s then s.turnOff else s)).map
        Switch.rect = l.map Switch.rect := by
  induction l with
  | nil => rfl
  | cons x xs ih =>
    simp only [List.map_cons, ih]
    split <;> simp [Switch.turnOff]

lemma pres_switchE (st : EngineState) :
    sizes (resolveSwitchCollisionsE st).scene.players = sizes st.scene.players ∧
    obstacleRects (resolveSwitchCollisionsE st).scene = obstacleRects st.scene := by
  refine ⟨rfl, ?_⟩
  unfold resolveSwitchCollisionsE resolveSwitchCollisions obstacleRects
  rw [switch_rect_map]

lemma pres_spike (st : EngineState) :
    sizes (resolveSpikeCollisions st).scene.players = sizes st.scene.players ∧
    obstacleRects (resolveSpikeCollisions st).scene = obstacleRects st.scene :=
  ⟨rfl, rfl⟩

lemma pres_boss (st : EngineState) :
    sizes (resolveBossCollisions st).scene.players = sizes st.scene.players ∧
    obstacleRects (resolveBossCollisions st).scene = obstacleRects st.scene :=
  ⟨rfl, rfl⟩

lemma pres_boundary (st : EngineState) :
    sizes (resolveBoundaryCollision st).scene.players = sizes st.scene.players ∧
    obstacleRects (resolveBoundaryCollision st).scene = obstacleRects st.scene :=
  ⟨rfl, rfl⟩

lemma pres_player (speed : Int) (st : EngineState) :
    sizes (resolvePlayerCollisions speed st).scene.players = sizes st.scene.players ∧
    obstacleRects (resolvePlayerCollisions speed st).scene = obstacleRects st.scene := by
  obtain ⟨⟨players, w1, w2, w3, w4, w5, w6, w7, w8, w9⟩, msgs, audio⟩ := st
  unfold resolvePlayerCollisions
  rcases players with _ | ⟨a, _ | ⟨b, _ | ⟨c, t⟩⟩⟩
  · exact ⟨rfl, rfl⟩
  · exact ⟨rfl, rfl⟩
  · by_cases hcol : collideRect a.rect b.rect = true
    · by_cases hx : a.rect.x < b.rect.x
      · constructor
        · simp [hcol, hx, sizes, addVelocityX, addVelocityY]
        · simp [hcol, hx, obstacleRects, addVelocityX, addVelocityY]
      · constructor
        · simp [hcol, hx, sizes, addVelocityX, addVelocityY]
        · simp [hcol, hx, obstacleRects, addVelocityX, addVelocityY]
    · have hcolF : collideRect a.rect b.rect = false := by
        rw [Bool.not_eq_true] at hcol
        exact hcol
      constructor
      · simp [hcolF, sizes]
      · simp [hcolF, obstacleRects]
  · exact ⟨rfl, rfl⟩

lemma pres_doors (st : EngineState) :
    sizes (resolveDoorCollisions st).scene.players = sizes st.scene.players ∧
    obstacleRects (resolveDoorCollisions st).scene = obstacleRects st.scene :=
  ⟨rfl, rfl⟩

lemma pres_coop (key : Nat) (st : EngineState) :
    sizes (coopJumpPart key st).scene.players = sizes st.scene.players ∧
    obstacleRects (coopJumpPart key st).scene = obstacleRects st.scene := by
  obtain ⟨⟨players, w1, w2, w3, w4, w5, w6, w7, w8, w9⟩, msgs, audio⟩ := st
  unfold coopJumpPart
  rcases players with _ | ⟨a, _ | ⟨b, _ | ⟨c, t⟩⟩⟩
  · exact ⟨rfl, rfl⟩
  · exact ⟨rfl, rfl⟩
  · by_cases hco : key = a.coopJump ∨ key = b.coopJump
    · have hp := pres_player 30
        ⟨⟨[a, b], w1, w2, w3, w4, w5, w6, w7, w8, w9⟩, msgs, audio⟩
      simp only [if_pos hco]
      exact hp
    · simp only [if_neg hco]
      trivial
  · exact ⟨rfl, rfl⟩

lemma pres_eventHandler (key : Nat) (st : EngineState) :
    sizes (eventHandler key st).scene.players = sizes st.scene.players ∧
    obstacleRects (eventHandler key st).scene = obstacleRects st.scene := by
  unfold eventHandler
  by_cases hk : key = K_RETURN
  · rw [if_pos hk]
    obtain ⟨h1, h2⟩ := pres_coop key (resolveDoorCollisions st)
    obtain ⟨h3, h4⟩ := pres_doors st
    exact ⟨h1.trans h3, h2.trans h4⟩
  · rw [if_neg hk]
    exact pres_coop key st

/-- C9: every engine operation only translates rectangles and mutates
velocity, displacement, ground and switch flags: the per-tick pass and the
input-triggered handler preserve the width and height of every player's
rectangle (pointwise, in order) and leave every obstacle rectangle of the
scene untouched. -/
theorem c9_theorem (st : EngineState) (key : Nat) :
    (sizes (update st).scene.players = sizes st.scene.players ∧
      obstacleRects (update st).scene = obstacleRects st.scene) ∧
    (sizes (eventHandler key st).scene.players = sizes st.scene.players ∧
      obstacleRects (eventHandler key st).scene = obstacleRects st.scene) := by
  constructor
  · unfold update audioUpdate
    obtain ⟨a1, a2⟩ := pres_wall st
    obtain ⟨b1, b2⟩ := pres_switchE (resolveWallCollisions st)
    obtain ⟨c1, c2⟩ := pres_splat (resolveSwitchCollisionsE (resolveWallCollisions st))
    obtain ⟨d1, d2⟩ := pres_dplat
      (resolveSPlatformCollisions (resolveSwitchCollisionsE (resolveWallCollisions st)))
    obtain ⟨e1, e2⟩ := pres_mplat
      (resolveDPlatformCollisions
        (resolveSPlatformCollisions (resolveSwitchCollisionsE (resolveWallCollisions st))))
    obtain ⟨f1, f2⟩ := pres_spike
      (resolveMPlatformCollisions
        (resolveDPlatformCollisions
          (resolveSPlatformCollisions (resolveSwitchCollisionsE (resolveWallCollisions st)))))
    obtain ⟨g1, g2⟩ := pres_boss
      (resolveSpikeCollisions
        (resolveMPlatformCollisions
          (resolveDPlatformCollisions
            (resolveSPlatformCollisions (resolveSwitchCollisionsE (resolveWallCollisions st))))))
    obtain ⟨i1, i2⟩ := pres_boundary
      (resolveBossCollisions
        (resolveSpikeCollisions
          (resolveMPlatformCollisions
            (resolveDPlatformCollisions
              (resolveSPlatformCollisions (resolveSwitchCollisionsE (resolveWallCollisions st)))))))
    constructor
    · rw [i1, g1, f1, e1, d1, c1, b1, a1]
    · rw [i2, g2, f2, e2, d2, c2, b2, a2]
  · exact pres_eventHandler key st

end Collision
